import Mathlib

/-!
Shallow embedding of the tournament escrow program
(`src/programs/tournament/src/lib.rs`).

Modelling conventions:
* `Pubkey` is an opaque identity, modelled as `Nat`; `Pubkey::default()` is `0`
  and the hard-coded `PROGRAM_AUTHORITY` string is the distinguished key `1`.
* Machine integers are modelled as `Nat`.  The program's `u128` intermediates
  (`calculate_total_buy_ins`, `calculate_percentage_amount`, the running
  `total_distributed`) are modelled exactly: a `u8` player count times a `u64`
  fee times a `u16` basis-point percentage stays far below `2 ^ 128`, so the
  `u128` arithmetic in the source never wraps on representable inputs.
* Where the source *narrows* a wider value the truncation is modelled
  explicitly: the `u16` triple sum in `initialize_tournament` is taken modulo
  `2 ^ 16` (three `u16` additions under the release-profile wrapping semantics
  that the source's own post-hoc overflow checks assume), the `u32` combined
  group percentage is cast to `u16` modulo `2 ^ 16`, and every lamport amount
  handed to `transfer_from_escrow` is cast `as u64`, i.e. modulo `2 ^ 64`.
* Each instruction is a pure function from the tournament state and its
  arguments to a `RunResult`: the list of lamport transfers performed before
  returning, the `TournamentState` as of the return point, and `none` on
  success or `some e` when the instruction returns the error `e`.  The Anchor
  account constraint `tournament_state.authority == authority.key()` is the
  first check of every state-mutating instruction, as Anchor evaluates account
  constraints before the instruction body runs.
-/

namespace TournamentProgram

abbrev Pubkey := Nat

/-- `Pubkey::default()`. -/
def pubkeyDefault : Pubkey := 0

/-- The hard-coded program authority (an opaque identity in this model). -/
def PROGRAM_AUTHORITY : Pubkey := 1

def U16MOD : Nat := 2 ^ 16

def U64MOD : Nat := 2 ^ 64

inductive TournamentPhase
  | Registration
  | Playing
  | Finalized
  | Cancelled
deriving DecidableEq, Repr

inductive ErrorCode
  | InvalidWinner
  | InvalidPhase
  | NotEnoughPlayers
  | TournamentFull
  | AlreadyRegistered
  | WinnerNotParticipant
  | InvalidPercentages
  | InvalidMatchPayoutPercentages
  | InvalidPayoutCount
  | InvalidWinnerCount
  | DuplicateWinner
  | MissingWinnerAccount
  | OperatorFeeAlreadyWithdrawn
  | TournamentNotFinalized
  | UnauthorizedAuthority
  | MatchAlreadyPaid
  | InvalidBuyInAmount
  | InvalidMaxPlayers
  | InvalidMatchSize
  | InvalidTournamentPrizePercentage
  | InvalidMatchPrizePercentage
  | InvalidOperatorFeePercentage
  | PlayerCountOverflow
  | TooManyPayoutPositions
  | InvalidPayoutPercentage
  | InvalidMatchCount
  | NoMatchRewards
  | InvalidMatchPayoutCount
  | InvalidMatchPayoutPercentage
  | TooManyWinners
  | TournamentPrizeTooLow
  | OperatorFeeTooHigh
  | CalculationOverflow
  | TournamentAlreadyStarted
  | TournamentNotCancelled
  | ParticipantNotFound
  | ParticipantAlreadyRefunded
deriving DecidableEq, Repr

inductive Winner
  | Individual (player : Pubkey)
  | Group (players : List Pubkey) (positions_consumed : Nat)
deriving DecidableEq, Repr

structure TournamentState where
  buy_in_amount : Nat
  max_players : Nat
  current_players : Nat
  escrow_bump : Nat
  match_size : Nat
  phase : TournamentPhase
  participants : List Pubkey
  paid_match_ids : List Nat
  tournament_prize_percentage : Nat
  match_prize_percentage : Nat
  operator_fee_percentage : Nat
  tournament_payouts : List Nat
  match_payout_percentages : List Nat
  operator_fee_withdrawn : Bool
  authority : Pubkey
  refunded_participants : List Pubkey
deriving DecidableEq, Repr

/-- A lamport movement performed by an instruction: a buy-in into the escrow
vault, or a payout out of it. -/
inductive Transfer
  | toEscrow (source : Pubkey) (amount : Nat)
  | fromEscrow (dest : Pubkey) (amount : Nat)
deriving DecidableEq, Repr

def Transfer.amount : Transfer → Nat
  | .toEscrow _ a => a
  | .fromEscrow _ a => a

def transfersTotal (ts : List Transfer) : Nat :=
  (ts.map Transfer.amount).sum

/-- Outcome of one instruction: the transfers performed before returning, the
tournament state as of the return point, and the error if the instruction
failed (`none` on success). -/
structure RunResult where
  transfers : List Transfer
  state : TournamentState
  error : Option ErrorCode
deriving DecidableEq, Repr

def is_participant (s : TournamentState) (player : Pubkey) : Bool :=
  s.participants.contains player

def calculate_total_buy_ins (current_players buy_in_amount : Nat) :
    Except ErrorCode Nat :=
  let total := current_players * buy_in_amount
  if total / buy_in_amount = current_players then Except.ok total
  else Except.error ErrorCode.CalculationOverflow

def calculate_percentage_amount (total percentage : Nat) : Except ErrorCode Nat :=
  let amount := total * percentage / 10000
  if amount ≤ total then Except.ok amount
  else Except.error ErrorCode.CalculationOverflow

/-- The per-player payout loop of a `Winner::Group` branch.  This code is
duplicated verbatim between `finalize_tournament` and
`distribute_match_rewards` in the source, so both embeddings share it.
Each player receives `payout_per_player` except the last, who receives the
whole remaining amount; a zero share aborts with `NoMatchRewards`, and a
player whose account is absent aborts with `MissingWinnerAccount`.  Returns
the transfers performed (also on the error paths, since the source transfers
to earlier group members before validating later ones) and, on success, the
total distributed to the group. -/
def groupPayoutLoop (accounts : List Pubkey) (players : List Pubkey)
    (payout_per_player remaining_amount : Nat) :
    List Transfer × Except ErrorCode Nat :=
  match players with
  | [] => ([], Except.ok 0)
  | player :: rest =>
    let amount_to_transfer :=
      if rest.isEmpty then remaining_amount else payout_per_player
    if amount_to_transfer = 0 then ([], Except.error ErrorCode.NoMatchRewards)
    else if accounts.contains player then
      if rest.isEmpty then
        ([Transfer.fromEscrow player (amount_to_transfer % U64MOD)],
         Except.ok amount_to_transfer)
      else
        match groupPayoutLoop accounts rest payout_per_player
            (remaining_amount - amount_to_transfer) with
        | (ts, r) =>
          (Transfer.fromEscrow player (amount_to_transfer % U64MOD) :: ts,
           match r with
           | Except.ok d => Except.ok (amount_to_transfer + d)
           | Except.error e => Except.error e)
    else ([], Except.error ErrorCode.MissingWinnerAccount)

/-- The winner-processing loop of `finalize_tournament` (lines 403-508 of the
source), parametrised by the payout-percentage sequence and the pool. -/
def finalizeWinnersLoop (payouts : List Nat) (pool : Nat)
    (accounts : List Pubkey) (winners : List Winner)
    (position_counter total_distributed : Nat) :
    List Transfer × Except ErrorCode Nat :=
  match winners with
  | [] => ([], Except.ok total_distributed)
  | Winner.Individual player :: rest =>
    if h : position_counter < payouts.length then
      match calculate_percentage_amount pool (payouts[position_counter]) with
      | Except.error e => ([], Except.error e)
      | Except.ok amount =>
        if accounts.contains player then
          match finalizeWinnersLoop payouts pool accounts rest
              (position_counter + 1) (total_distributed + amount) with
          | (ts, r) => (Transfer.fromEscrow player (amount % U64MOD) :: ts, r)
        else ([], Except.error ErrorCode.MissingWinnerAccount)
    else
      finalizeWinnersLoop payouts pool accounts rest (position_counter + 1)
        total_distributed
  | Winner.Group players positions_consumed :: rest =>
    if players.isEmpty then ([], Except.error ErrorCode.InvalidWinnerCount)
    else if positions_consumed = 0 then
      ([], Except.error ErrorCode.InvalidWinnerCount)
    else
      let combined_pool_percentage :=
        ((payouts.drop position_counter).take positions_consumed).sum
      match calculate_percentage_amount pool (combined_pool_percentage % U16MOD) with
      | Except.error e => ([], Except.error e)
      | Except.ok combined_pool_amount =>
        let payout_per_player := combined_pool_amount / players.length
        if payout_per_player * players.length ≤ combined_pool_amount then
          match groupPayoutLoop accounts players payout_per_player
              combined_pool_amount with
          | (gts, Except.error e) => (gts, Except.error e)
          | (gts, Except.ok d) =>
            match finalizeWinnersLoop payouts pool accounts rest
                (position_counter + positions_consumed) (total_distributed + d) with
            | (ts, r) => (gts ++ ts, r)
        else ([], Except.error ErrorCode.CalculationOverflow)

/-- The winner-processing loop of `distribute_match_rewards` (lines 605-710).
Identical to `finalizeWinnersLoop` except that the `Individual` branch
additionally requires the computed amount to be positive
(`require!(amount > 0, ErrorCode::NoMatchRewards)`). -/
def distributeWinnersLoop (payouts : List Nat) (pool : Nat)
    (accounts : List Pubkey) (winners : List Winner)
    (position_counter total_distributed : Nat) :
    List Transfer × Except ErrorCode Nat :=
  match winners with
  | [] => ([], Except.ok total_distributed)
  | Winner.Individual player :: rest =>
    if h : position_counter < payouts.length then
      match calculate_percentage_amount pool (payouts[position_counter]) with
      | Except.error e => ([], Except.error e)
      | Except.ok amount =>
        if amount = 0 then ([], Except.error ErrorCode.NoMatchRewards)
        else if accounts.contains player then
          match distributeWinnersLoop payouts pool accounts rest
              (position_counter + 1) (total_distributed + amount) with
          | (ts, r) => (Transfer.fromEscrow player (amount % U64MOD) :: ts, r)
        else ([], Except.error ErrorCode.MissingWinnerAccount)
    else
      distributeWinnersLoop payouts pool accounts rest (position_counter + 1)
        total_distributed
  | Winner.Group players positions_consumed :: rest =>
    if players.isEmpty then ([], Except.error ErrorCode.InvalidWinnerCount)
    else if positions_consumed = 0 then
      ([], Except.error ErrorCode.InvalidWinnerCount)
    else
      let combined_pool_percentage :=
        ((payouts.drop position_counter).take positions_consumed).sum
      match calculate_percentage_amount pool (combined_pool_percentage % U16MOD) with
      | Except.error e => ([], Except.error e)
      | Except.ok combined_pool_amount =>
        let payout_per_player := combined_pool_amount / players.length
        if payout_per_player * players.length ≤ combined_pool_amount then
          match groupPayoutLoop accounts players payout_per_player
              combined_pool_amount with
          | (gts, Except.error e) => (gts, Except.error e)
          | (gts, Except.ok d) =>
            match distributeWinnersLoop payouts pool accounts rest
                (position_counter + positions_consumed) (total_distributed + d) with
            | (ts, r) => (gts ++ ts, r)
        else ([], Except.error ErrorCode.CalculationOverflow)

/-- Winner validation loop of `finalize_tournament` (lines 380-391): every
named player must be a registered participant. -/
def validateFinalizePlayers (s : TournamentState) : List Pubkey → Option ErrorCode
  | [] => none
  | player :: rest =>
    if !is_participant s player then some ErrorCode.WinnerNotParticipant
    else validateFinalizePlayers s rest

def validateFinalizeWinners (s : TournamentState) : List Winner → Option ErrorCode
  | [] => none
  | Winner.Individual player :: rest =>
    if !is_participant s player then some ErrorCode.WinnerNotParticipant
    else validateFinalizeWinners s rest
  | Winner.Group players _ :: rest =>
    match validateFinalizePlayers s players with
    | some e => some e
    | none => validateFinalizeWinners s rest

/-- Winner validation loop of `distribute_match_rewards` (lines 556-575):
every named player must be non-default and a registered participant. -/
def validateMatchPlayers (s : TournamentState) : List Pubkey → Option ErrorCode
  | [] => none
  | player :: rest =>
    if player = pubkeyDefault then some ErrorCode.InvalidWinner
    else if !is_participant s player then some ErrorCode.WinnerNotParticipant
    else validateMatchPlayers s rest

def validateMatchWinners (s : TournamentState) : List Winner → Option ErrorCode
  | [] => none
  | Winner.Individual player :: rest =>
    if player = pubkeyDefault then some ErrorCode.InvalidWinner
    else if !is_participant s player then some ErrorCode.WinnerNotParticipant
    else validateMatchWinners s rest
  | Winner.Group players _ :: rest =>
    match validateMatchPlayers s players with
    | some e => some e
    | none => validateMatchWinners s rest

/-- `initialize_tournament` (lines 144-214).  The Anchor constraint on `payer`
(line 895) is the first check; the `u16` sum of the three percentages is taken
modulo `2 ^ 16`. -/
def initialize_tournament (payer : Pubkey) (escrow_bump : Nat)
    (buy_in_amount max_players match_size : Nat)
    (tournament_prize_percentage match_prize_percentage
     operator_fee_percentage : Nat) : Except ErrorCode TournamentState :=
  if payer ≠ PROGRAM_AUTHORITY then Except.error ErrorCode.UnauthorizedAuthority
  else if ¬ 0 < buy_in_amount then Except.error ErrorCode.InvalidBuyInAmount
  else if ¬ (2 ≤ max_players ∧ max_players ≤ 100) then
    Except.error ErrorCode.InvalidMaxPlayers
  else if ¬ (2 ≤ match_size ∧ match_size ≤ max_players) then
    Except.error ErrorCode.InvalidMatchSize
  else if ¬ 0 < tournament_prize_percentage then
    Except.error ErrorCode.InvalidTournamentPrizePercentage
  else if ¬ (0 < operator_fee_percentage ∧ operator_fee_percentage ≤ 1500) then
    Except.error ErrorCode.InvalidOperatorFeePercentage
  else if ¬ (tournament_prize_percentage + match_prize_percentage +
      operator_fee_percentage) % U16MOD = 10000 then
    Except.error ErrorCode.InvalidPercentages
  else if ¬ 5000 ≤ tournament_prize_percentage then
    Except.error ErrorCode.TournamentPrizeTooLow
  else if ¬ operator_fee_percentage ≤ 1500 then
    Except.error ErrorCode.OperatorFeeTooHigh
  else Except.ok
    { buy_in_amount := buy_in_amount
      max_players := max_players
      current_players := 0
      escrow_bump := escrow_bump
      match_size := match_size
      phase := TournamentPhase.Registration
      participants := []
      paid_match_ids := []
      tournament_prize_percentage := tournament_prize_percentage
      match_prize_percentage := match_prize_percentage
      operator_fee_percentage := operator_fee_percentage
      tournament_payouts := []
      match_payout_percentages := []
      operator_fee_withdrawn := false
      authority := payer
      refunded_participants := [] }

/-- `buy_in` (lines 216-271) together with the `BuyIn` account constraint on
`authority` (lines 919-922). -/
def buy_in (s : TournamentState) (player authority : Pubkey) : RunResult :=
  if authority ≠ s.authority then ⟨[], s, some ErrorCode.UnauthorizedAuthority⟩
  else if s.phase ≠ TournamentPhase.Registration then
    ⟨[], s, some ErrorCode.InvalidPhase⟩
  else if ¬ s.current_players < s.max_players then
    ⟨[], s, some ErrorCode.TournamentFull⟩
  else if ¬ s.current_players < 255 then
    ⟨[], s, some ErrorCode.PlayerCountOverflow⟩
  else if s.participants.contains player then
    ⟨[], s, some ErrorCode.AlreadyRegistered⟩
  else
    ⟨[Transfer.toEscrow player s.buy_in_amount],
     { s with participants := s.participants ++ [player],
              current_players := s.current_players + 1 }, none⟩

/-- `start_tournament` (lines 273-361). -/
def start_tournament (s : TournamentState) (authority : Pubkey)
    (payout_percentages match_payout_percentages : List Nat) : RunResult :=
  if authority ≠ s.authority then ⟨[], s, some ErrorCode.UnauthorizedAuthority⟩
  else if s.phase ≠ TournamentPhase.Registration then
    ⟨[], s, some ErrorCode.InvalidPhase⟩
  else if ¬ 0 < s.current_players then ⟨[], s, some ErrorCode.NotEnoughPlayers⟩
  else if ¬ (¬ payout_percentages.isEmpty ∧ payout_percentages.length ≤ 20) then
    ⟨[], s, some ErrorCode.InvalidPayoutCount⟩
  else if ¬ payout_percentages.length ≤ s.current_players then
    ⟨[], s, some ErrorCode.TooManyPayoutPositions⟩
  else if ¬ payout_percentages.sum = 10000 then
    ⟨[], s, some ErrorCode.InvalidPercentages⟩
  else if payout_percentages.any (fun p => decide (p = 0) || decide (10000 < p)) then
    ⟨[], s, some ErrorCode.InvalidPayoutPercentage⟩
  else if ¬ (¬ match_payout_percentages.isEmpty ∧
      match_payout_percentages.length ≤ 8) then
    ⟨[], s, some ErrorCode.InvalidMatchPayoutCount⟩
  else if ¬ match_payout_percentages.sum = 10000 then
    ⟨[], s, some ErrorCode.InvalidMatchPayoutPercentages⟩
  else if match_payout_percentages.any
      (fun p => decide (p = 0) || decide (10000 < p)) then
    ⟨[], s, some ErrorCode.InvalidMatchPayoutPercentage⟩
  else
    ⟨[], { s with tournament_payouts := payout_percentages,
                  match_payout_percentages := match_payout_percentages,
                  phase := TournamentPhase.Playing }, none⟩

/-- `finalize_tournament` (lines 363-532) with the `FinalizeTournament`
authority constraint (lines 940-943). -/
def finalize_tournament (s : TournamentState) (authority : Pubkey)
    (winners : List Winner) (accounts : List Pubkey) : RunResult :=
  if authority ≠ s.authority then ⟨[], s, some ErrorCode.UnauthorizedAuthority⟩
  else if s.phase ≠ TournamentPhase.Playing then
    ⟨[], s, some ErrorCode.InvalidPhase⟩
  else if winners.isEmpty then ⟨[], s, some ErrorCode.InvalidWinnerCount⟩
  else
    match validateFinalizeWinners s winners with
    | some e => ⟨[], s, some e⟩
    | none =>
      match calculate_total_buy_ins s.current_players s.buy_in_amount with
      | Except.error e => ⟨[], s, some e⟩
      | Except.ok total_buy_ins =>
        match calculate_percentage_amount total_buy_ins
            s.tournament_prize_percentage with
        | Except.error e => ⟨[], s, some e⟩
        | Except.ok tournament_pool =>
          match finalizeWinnersLoop s.tournament_payouts tournament_pool
              accounts winners 0 0 with
          | (ts, Except.error e) => ⟨ts, s, some e⟩
          | (ts, Except.ok total_distributed) =>
            if total_distributed ≤ tournament_pool then
              ⟨ts, { s with phase := TournamentPhase.Finalized }, none⟩
            else ⟨ts, s, some ErrorCode.CalculationOverflow⟩

/-- `distribute_match_rewards` (lines 534-735) with the
`DistributeMatchRewards` authority constraint (lines 962-965). -/
def distribute_match_rewards (s : TournamentState) (authority : Pubkey)
    (match_id_hash : Nat) (winners : List Winner) (accounts : List Pubkey) :
    RunResult :=
  if authority ≠ s.authority then ⟨[], s, some ErrorCode.UnauthorizedAuthority⟩
  else if s.phase ≠ TournamentPhase.Finalized then
    ⟨[], s, some ErrorCode.TournamentNotFinalized⟩
  else if s.paid_match_ids.contains match_id_hash then
    ⟨[], s, some ErrorCode.MatchAlreadyPaid⟩
  else if winners.isEmpty then ⟨[], s, some ErrorCode.InvalidWinnerCount⟩
  else
    match validateMatchWinners s winners with
    | some e => ⟨[], s, some e⟩
    | none =>
      match calculate_total_buy_ins s.current_players s.buy_in_amount with
      | Except.error e => ⟨[], s, some e⟩
      | Except.ok total_buy_ins =>
        match calculate_percentage_amount total_buy_ins
            s.match_prize_percentage with
        | Except.error e => ⟨[], s, some e⟩
        | Except.ok total_match_pool =>
          let num_matches :=
            (s.current_players + s.match_size - 1) / s.match_size
          if ¬ 0 < num_matches then ⟨[], s, some ErrorCode.InvalidMatchCount⟩
          else
            let match_pool := total_match_pool / num_matches
            if ¬ 0 < match_pool then ⟨[], s, some ErrorCode.NoMatchRewards⟩
            else if ¬ match_pool * num_matches ≤ total_match_pool then
              ⟨[], s, some ErrorCode.CalculationOverflow⟩
            else
              match distributeWinnersLoop s.match_payout_percentages match_pool
                  accounts winners 0 0 with
              | (ts, Except.error e) => ⟨ts, s, some e⟩
              | (ts, Except.ok total_distributed) =>
                if total_distributed ≤ match_pool then
                  ⟨ts, { s with paid_match_ids :=
                           s.paid_match_ids ++ [match_id_hash] }, none⟩
                else ⟨ts, s, some ErrorCode.CalculationOverflow⟩

/-- `withdraw_operator_fee` (lines 737-777). -/
def withdraw_operator_fee (s : TournamentState)
    (authority fee_recipient : Pubkey) : RunResult :=
  if authority ≠ s.authority then ⟨[], s, some ErrorCode.UnauthorizedAuthority⟩
  else if s.phase ≠ TournamentPhase.Finalized then
    ⟨[], s, some ErrorCode.TournamentNotFinalized⟩
  else if s.operator_fee_withdrawn then
    ⟨[], s, some ErrorCode.OperatorFeeAlreadyWithdrawn⟩
  else
    match calculate_total_buy_ins s.current_players s.buy_in_amount with
    | Except.error e => ⟨[], s, some e⟩
    | Except.ok total_buy_ins =>
      match calculate_percentage_amount total_buy_ins
          s.operator_fee_percentage with
      | Except.error e => ⟨[], s, some e⟩
      | Except.ok operator_fee =>
        ⟨[Transfer.fromEscrow fee_recipient (operator_fee % U64MOD)],
         { s with operator_fee_withdrawn := true }, none⟩

/-- `cancel_tournament` (lines 779-798). -/
def cancel_tournament (s : TournamentState) (authority : Pubkey) : RunResult :=
  if authority ≠ s.authority then ⟨[], s, some ErrorCode.UnauthorizedAuthority⟩
  else if s.phase ≠ TournamentPhase.Registration then
    ⟨[], s, some ErrorCode.TournamentAlreadyStarted⟩
  else ⟨[], { s with phase := TournamentPhase.Cancelled }, none⟩

/-- `refund_participant` (lines 800-845). -/
def refund_participant (s : TournamentState)
    (authority participant : Pubkey) : RunResult :=
  if authority ≠ s.authority then ⟨[], s, some ErrorCode.UnauthorizedAuthority⟩
  else if s.phase ≠ TournamentPhase.Cancelled then
    ⟨[], s, some ErrorCode.TournamentNotCancelled⟩
  else if ¬ s.participants.contains participant then
    ⟨[], s, some ErrorCode.ParticipantNotFound⟩
  else if s.refunded_participants.contains participant then
    ⟨[], s, some ErrorCode.ParticipantAlreadyRefunded⟩
  else
    ⟨[Transfer.fromEscrow participant s.buy_in_amount],
     { s with refunded_participants :=
         s.refunded_participants ++ [participant] }, none⟩

/-- The state-mutating instructions of the program, for theorems that range
over every operation. -/
inductive Op
  | buyIn (player authority : Pubkey)
  | start (authority : Pubkey) (payouts matchPayouts : List Nat)
  | finalize (authority : Pubkey) (winners : List Winner)
      (accounts : List Pubkey)
  | distribute (authority : Pubkey) (matchId : Nat) (winners : List Winner)
      (accounts : List Pubkey)
  | withdrawFee (authority recipient : Pubkey)
  | cancel (authority : Pubkey)
  | refund (authority participant : Pubkey)
deriving DecidableEq, Repr

def applyOp (s : TournamentState) : Op → RunResult
  | Op.buyIn player authority => buy_in s player authority
  | Op.start authority p m => start_tournament s authority p m
  | Op.finalize authority w accounts => finalize_tournament s authority w accounts
  | Op.distribute authority m w accounts =>
      distribute_match_rewards s authority m w accounts
  | Op.withdrawFee authority r => withdraw_operator_fee s authority r
  | Op.cancel authority => cancel_tournament s authority
  | Op.refund authority p => refund_participant s authority p

/-- Number of payout positions a winner list consumes: one per `Individual`,
`positions_consumed` per `Group`. -/
def consumedPositions : List Winner → Nat
  | [] => 0
  | Winner.Individual _ :: rest => 1 + consumedPositions rest
  | Winner.Group _ k :: rest => k + consumedPositions rest

/-- The tournament prize pool as the spec describes it:
`entry_fee × current_players × tournament_prize_percentage / 10000`. -/
def tournamentPool (s : TournamentState) : Nat :=
  s.current_players * s.buy_in_amount * s.tournament_prize_percentage / 10000

/-! ### Helper lemmas -/

theorem sum_take_le (l : List Nat) (n : Nat) : (l.take n).sum ≤ l.sum := by
  conv_rhs => rw [← List.take_append_drop n l]
  rw [List.sum_append]
  exact Nat.le_add_right _ _

theorem sum_drop_le (l : List Nat) (n : Nat) : (l.drop n).sum ≤ l.sum := by
  conv_rhs => rw [← List.take_append_drop n l]
  rw [List.sum_append]
  exact Nat.le_add_left _ _

theorem calc_total_ok (p b : Nat) (hb : 0 < b) :
    calculate_total_buy_ins p b = Except.ok (p * b) := by
  simp [calculate_total_buy_ins, Nat.mul_div_cancel _ hb]

theorem calc_pct_ok (total pct : Nat) (h : pct ≤ 10000) :
    calculate_percentage_amount total pct = Except.ok (total * pct / 10000) := by
  have hle : total * pct / 10000 ≤ total := by
    calc total * pct / 10000 ≤ total * 10000 / 10000 :=
          Nat.div_le_div_right (Nat.mul_le_mul_left _ h)
      _ = total := Nat.mul_div_cancel total (by norm_num)
  simp [calculate_percentage_amount, hle]

theorem calc_pct_err (total pct : Nat) (e : ErrorCode)
    (h : calculate_percentage_amount total pct = Except.error e) :
    e = ErrorCode.CalculationOverflow := by
  by_cases hc : total * pct / 10000 ≤ total
  · simp [calculate_percentage_amount, hc] at h
  · simp [calculate_percentage_amount, hc] at h
    exact h.symm

theorem calc_total_err (p b : Nat) (e : ErrorCode)
    (h : calculate_total_buy_ins p b = Except.error e) :
    e = ErrorCode.CalculationOverflow := by
  by_cases hc : p * b / b = p
  · simp [calculate_total_buy_ins, hc] at h
  · simp [calculate_total_buy_ins, hc] at h
    exact h.symm

/-! ### Concrete states used by the closed theorems -/

/-- A registration-phase tournament with two registered players. -/
def regState : TournamentState :=
  { buy_in_amount := 100
    max_players := 10
    current_players := 2
    escrow_bump := 0
    match_size := 2
    phase := TournamentPhase.Registration
    participants := [1, 2]
    paid_match_ids := []
    tournament_prize_percentage := 5000
    match_prize_percentage := 3500
    operator_fee_percentage := 1500
    tournament_payouts := []
    match_payout_percentages := []
    operator_fee_withdrawn := false
    authority := 9
    refunded_participants := [] }

/-- The same tournament once started with payouts `[5000, 5000]` and match
payouts `[10000]`. -/
def playingState : TournamentState :=
  { regState with phase := TournamentPhase.Playing,
                  tournament_payouts := [5000, 5000],
                  match_payout_percentages := [10000] }

def finalizedState : TournamentState :=
  { playingState with phase := TournamentPhase.Finalized }

def cancelledState : TournamentState :=
  { regState with phase := TournamentPhase.Cancelled }

/-! ### Claim theorems -/

/-- C3 (code evaluation at the failing input): `initialize_tournament`
accepts percentages 60000 / 15000 / 536 whose mathematical sum is 75536, not
10000, because the source adds the three `u16` values with wrapping
arithmetic and 75536 ≡ 10000 (mod 2^16).  The claim says any configuration
whose percentages sum to a value other than 10000 is rejected with
`InvalidPercentages`. -/
theorem C3_wrapping_sum_accepted :
    initialize_tournament PROGRAM_AUTHORITY 0 1 2 2 60000 15000 536 =
      Except.ok
        { buy_in_amount := 1
          max_players := 2
          current_players := 0
          escrow_bump := 0
          match_size := 2
          phase := TournamentPhase.Registration
          participants := []
          paid_match_ids := []
          tournament_prize_percentage := 60000
          match_prize_percentage := 15000
          operator_fee_percentage := 536
          tournament_payouts := []
          match_payout_percentages := []
          operator_fee_withdrawn := false
          authority := PROGRAM_AUTHORITY
          refunded_participants := [] } ∧
    60000 + 15000 + 536 ≠ 10000 := by
  constructor
  · rfl
  · decide

/-- C10: `buy_in` is gated on the stored tournament authority co-signing: a
call whose authority account differs from `tournament_state.authority` fails
with `UnauthorizedAuthority`, performs no transfer and leaves the state
unchanged. -/
theorem C10_buy_in_requires_authority (s : TournamentState)
    (player authority : Pubkey) (h : authority ≠ s.authority) :
    buy_in s player authority = ⟨[], s, some ErrorCode.UnauthorizedAuthority⟩ := by
  simp [buy_in, h]

theorem C10_witness :
    buy_in regState 3 99 = ⟨[], regState, some ErrorCode.UnauthorizedAuthority⟩ :=
  C10_buy_in_requires_authority regState 3 99 (by decide)

/-- C6: in `finalize_tournament`, an `Individual` winner whose position
counter is at or beyond the length of `tournament_payouts` is skipped
entirely — no transfer, no account lookup, no failure — and the position
counter still advances by one; `distribute_match_rewards` behaves the same
way against `match_payout_percentages`. -/
theorem C6_position_beyond_payouts (payouts : List Nat) (pool : Nat)
    (accounts : List Pubkey) (player : Pubkey) (rest : List Winner)
    (pos total : Nat) (h : payouts.length ≤ pos) :
    finalizeWinnersLoop payouts pool accounts
        (Winner.Individual player :: rest) pos total =
      finalizeWinnersLoop payouts pool accounts rest (pos + 1) total ∧
    distributeWinnersLoop payouts pool accounts
        (Winner.Individual player :: rest) pos total =
      distributeWinnersLoop payouts pool accounts rest (pos + 1) total := by
  constructor
  · rw [finalizeWinnersLoop]
    rw [dif_neg (by omega)]
  · rw [distributeWinnersLoop]
    rw [dif_neg (by omega)]

theorem C6_witness :
    finalizeWinnersLoop [5000, 5000] 100 [] (Winner.Individual 3 :: []) 2 0 =
      finalizeWinnersLoop [5000, 5000] 100 [] [] 3 0 ∧
    distributeWinnersLoop [5000, 5000] 100 [] (Winner.Individual 3 :: []) 2 0 =
      distributeWinnersLoop [5000, 5000] 100 [] [] 3 0 :=
  C6_position_beyond_payouts [5000, 5000] 100 [] 3 [] 2 0 (by decide)

theorem refund_ok_shape (s : TournamentState) (a p : Pubkey)
    (h : (refund_participant s a p).error = none) :
    a = s.authority ∧ s.phase = TournamentPhase.Cancelled ∧
    p ∈ s.participants ∧ p ∉ s.refunded_participants ∧
    refund_participant s a p =
      ⟨[Transfer.fromEscrow p s.buy_in_amount],
       { s with refunded_participants := s.refunded_participants ++ [p] },
       none⟩ := by
  by_cases h1 : a = s.authority
  case neg => simp [refund_participant, h1] at h
  by_cases h2 : s.phase = TournamentPhase.Cancelled
  case neg => simp [refund_participant, h1, h2] at h
  by_cases h3 : p ∈ s.participants
  case neg => simp [refund_participant, h1, h2, h3] at h
  by_cases h4 : p ∈ s.refunded_participants
  case pos => simp [refund_participant, h1, h2, h3, h4] at h
  exact ⟨h1, h2, h3, h4, by simp [refund_participant, h1, h2, h3, h4]⟩

/-- C8: `refund_participant` fails with `TournamentNotCancelled` outside the
Cancelled phase, with `ParticipantNotFound` when the target never registered,
and with `ParticipantAlreadyRefunded` when the target was already refunded;
otherwise it transfers exactly the buy-in amount to the participant and
records them as refunded, so a second refund for the same participant fails
and each participant is refunded at most once. -/
theorem C8_refund_characterization (s : TournamentState)
    (authority participant : Pubkey) (hauth : authority = s.authority) :
    (s.phase ≠ TournamentPhase.Cancelled →
      refund_participant s authority participant =
        ⟨[], s, some ErrorCode.TournamentNotCancelled⟩) ∧
    (s.phase = TournamentPhase.Cancelled → participant ∉ s.participants →
      refund_participant s authority participant =
        ⟨[], s, some ErrorCode.ParticipantNotFound⟩) ∧
    (s.phase = TournamentPhase.Cancelled → participant ∈ s.participants →
      participant ∈ s.refunded_participants →
      refund_participant s authority participant =
        ⟨[], s, some ErrorCode.ParticipantAlreadyRefunded⟩) ∧
    (s.phase = TournamentPhase.Cancelled → participant ∈ s.participants →
      participant ∉ s.refunded_participants →
      refund_participant s authority participant =
        ⟨[Transfer.fromEscrow participant s.buy_in_amount],
         { s with refunded_participants :=
             s.refunded_participants ++ [participant] }, none⟩) ∧
    ((refund_participant s authority participant).error = none →
      refund_participant (refund_participant s authority participant).state
          (refund_participant s authority participant).state.authority
          participant =
        ⟨[], (refund_participant s authority participant).state,
         some ErrorCode.ParticipantAlreadyRefunded⟩) := by
  subst hauth
  refine ⟨?_, ?_, ?_, ?_, ?_⟩
  · intro h1
    simp [refund_participant, h1]
  · intro h1 h2
    simp [refund_participant, h1, h2]
  · intro h1 h2 h3
    simp [refund_participant, h1, h2, h3]
  · intro h1 h2 h3
    simp [refund_participant, h1, h2, h3]
  · intro h
    obtain ⟨-, h2, h3, h4, heq⟩ := refund_ok_shape s s.authority participant h
    rw [heq]
    simp [refund_participant, h2, h3]

theorem C8_witness :
    refund_participant cancelledState 9 1 =
      ⟨[Transfer.fromEscrow 1 100],
       { cancelledState with refunded_participants := [1] }, none⟩ ∧
    refund_participant
        { cancelledState with refunded_participants := [1] } 9 1 =
      ⟨[], { cancelledState with refunded_participants := [1] },
       some ErrorCode.ParticipantAlreadyRefunded⟩ := by
  have h := C8_refund_characterization cancelledState 9 1 (by decide)
  refine ⟨?_, ?_⟩
  · exact h.2.2.2.1 (by decide) (by decide) (by decide)
  · have h5 := h.2.2.2.2
    rw [h.2.2.2.1 (by decide) (by decide) (by decide)] at h5
    exact h5 (by decide)

/-! ### Per-operation run dichotomies: every run either fails with the state
unchanged, or succeeds with the specific state update of that instruction. -/

theorem buy_in_cases (s : TournamentState) (p a : Pubkey) :
    ((buy_in s p a).error.isSome ∧ (buy_in s p a).state = s ∧
      (buy_in s p a).transfers = []) ∨
    ((buy_in s p a).error = none ∧ s.phase = TournamentPhase.Registration ∧
      (buy_in s p a).state =
        { s with participants := s.participants ++ [p],
                 current_players := s.current_players + 1 }) := by
  rcases hr : buy_in s p a with ⟨ts0, st0, err0⟩
  unfold buy_in at hr
  repeat' split at hr
  all_goals simp only [RunResult.mk.injEq] at hr
  all_goals obtain ⟨rfl, rfl, rfl⟩ := hr
  all_goals first
    | (left; simp_all; done)
    | (right; simp_all; done)

theorem start_cases (s : TournamentState) (a : Pubkey) (pp mp : List Nat) :
    ((start_tournament s a pp mp).error.isSome ∧
      (start_tournament s a pp mp).state = s ∧
      (start_tournament s a pp mp).transfers = []) ∨
    ((start_tournament s a pp mp).error = none ∧
      s.phase = TournamentPhase.Registration ∧
      (start_tournament s a pp mp).state =
        { s with tournament_payouts := pp, match_payout_percentages := mp,
                 phase := TournamentPhase.Playing }) := by
  by_cases h1 : a = s.authority
  case neg => left; simp [start_tournament, h1]
  by_cases h2 : s.phase = TournamentPhase.Registration
  case neg => left; simp [start_tournament, h1, h2]
  by_cases h3 : 0 < s.current_players
  case neg => left; simp [start_tournament, h1, h2, h3]
  by_cases h4a : pp = []
  case pos => left; simp [start_tournament, h1, h2, h3, h4a]
  by_cases h4b : 20 < pp.length
  case pos => left; simp [start_tournament, h1, h2, h3, h4a, h4b]
  by_cases h5 : s.current_players < pp.length
  case pos => left; simp [start_tournament, h1, h2, h3, h4a, h4b, h5]
  by_cases h6 : pp.sum = 10000
  case neg => left; simp [start_tournament, h1, h2, h3, h4a, h4b, h5, h6]
  by_cases h7 : ∃ x ∈ pp, x = 0 ∨ 10000 < x
  case pos => left; simp [start_tournament, h1, h2, h3, h4a, h4b, h5, h6, h7]
  by_cases h8a : mp = []
  case pos =>
    left; simp [start_tournament, h1, h2, h3, h4a, h4b, h5, h6, h7, h8a]
  by_cases h8b : 8 < mp.length
  case pos =>
    left; simp [start_tournament, h1, h2, h3, h4a, h4b, h5, h6, h7, h8a, h8b]
  by_cases h9 : mp.sum = 10000
  case neg =>
    left
    simp [start_tournament, h1, h2, h3, h4a, h4b, h5, h6, h7, h8a, h8b, h9]
  by_cases h10 : ∃ x ∈ mp, x = 0 ∨ 10000 < x
  case pos =>
    left
    simp [start_tournament, h1, h2, h3, h4a, h4b, h5, h6, h7, h8a, h8b, h9, h10]
  right
  simp [start_tournament, h1, h2, h3, h4a, h4b, h5, h6, h7, h8a, h8b, h9, h10]

theorem finalize_cases (s : TournamentState) (a : Pubkey) (w : List Winner)
    (acc : List Pubkey) :
    ((finalize_tournament s a w acc).error.isSome ∧
      (finalize_tournament s a w acc).state = s) ∨
    ((finalize_tournament s a w acc).error = none ∧
      s.phase = TournamentPhase.Playing ∧
      (finalize_tournament s a w acc).state =
        { s with phase := TournamentPhase.Finalized }) := by
  rcases hr : finalize_tournament s a w acc with ⟨ts0, st0, err0⟩
  unfold finalize_tournament at hr
  repeat' split at hr
  all_goals simp only [RunResult.mk.injEq] at hr
  all_goals obtain ⟨rfl, rfl, rfl⟩ := hr
  all_goals first
    | (left; simp_all; done)
    | (right; simp_all; done)

theorem distribute_cases (s : TournamentState) (a : Pubkey) (m : Nat)
    (w : List Winner) (acc : List Pubkey) :
    ((distribute_match_rewards s a m w acc).error.isSome ∧
      (distribute_match_rewards s a m w acc).state = s) ∨
    ((distribute_match_rewards s a m w acc).error = none ∧
      s.phase = TournamentPhase.Finalized ∧ m ∉ s.paid_match_ids ∧
      (distribute_match_rewards s a m w acc).state =
        { s with paid_match_ids := s.paid_match_ids ++ [m] }) := by
  by_cases h1 : a = s.authority
  case neg => left; simp [distribute_match_rewards, h1]
  by_cases h2 : s.phase = TournamentPhase.Finalized
  case neg => left; simp [distribute_match_rewards, h1, h2]
  by_cases h3 : m ∈ s.paid_match_ids
  case pos => left; simp [distribute_match_rewards, h1, h2, h3]
  by_cases h4 : w.isEmpty = true
  case pos => left; simp [distribute_match_rewards, h1, h2, h3, h4]
  cases hv : validateMatchWinners s w with
  | some e => left; simp [distribute_match_rewards, h1, h2, h3, h4, hv]
  | none =>
  cases ht : calculate_total_buy_ins s.current_players s.buy_in_amount with
  | error e => left; simp [distribute_match_rewards, h1, h2, h3, h4, hv, ht]
  | ok tb =>
  cases hp : calculate_percentage_amount tb s.match_prize_percentage with
  | error e =>
    left; simp [distribute_match_rewards, h1, h2, h3, h4, hv, ht, hp]
  | ok tmp =>
  by_cases hn : 0 < (s.current_players + s.match_size - 1) / s.match_size
  case neg =>
    left; simp [distribute_match_rewards, h1, h2, h3, h4, hv, ht, hp, hn]
  by_cases hm : 0 < tmp / ((s.current_players + s.match_size - 1) / s.match_size)
  case neg =>
    left; simp [distribute_match_rewards, h1, h2, h3, h4, hv, ht, hp, hn, hm]
  by_cases hc : tmp / ((s.current_players + s.match_size - 1) / s.match_size) *
      ((s.current_players + s.match_size - 1) / s.match_size) ≤ tmp
  case neg =>
    left
    simp [distribute_match_rewards, h1, h2, h3, h4, hv, ht, hp, hn, hm, hc]
  rcases hl : distributeWinnersLoop s.match_payout_percentages
      (tmp / ((s.current_players + s.match_size - 1) / s.match_size)) acc w 0 0
    with ⟨ts, r⟩
  cases r with
  | error e =>
    left
    simp [distribute_match_rewards, h1, h2, h3, h4, hv, ht, hp, hn, hm, hc, hl]
  | ok T =>
  by_cases h6 : T ≤ tmp / ((s.current_players + s.match_size - 1) / s.match_size)
  case neg =>
    left
    simp [distribute_match_rewards, h1, h2, h3, h4, hv, ht, hp, hn, hm, hc, hl,
      h6]
  right
  simp [distribute_match_rewards, h1, h2, h3, h4, hv, ht, hp, hn, hm, hc, hl, h6]

theorem withdraw_cases (s : TournamentState) (a r : Pubkey) :
    ((withdraw_operator_fee s a r).error.isSome ∧
      (withdraw_operator_fee s a r).state = s ∧
      (withdraw_operator_fee s a r).transfers = []) ∨
    ((withdraw_operator_fee s a r).error = none ∧
      s.phase = TournamentPhase.Finalized ∧
      (withdraw_operator_fee s a r).state =
        { s with operator_fee_withdrawn := true }) := by
  rcases hr : withdraw_operator_fee s a r with ⟨ts0, st0, err0⟩
  unfold withdraw_operator_fee at hr
  repeat' split at hr
  all_goals simp only [RunResult.mk.injEq] at hr
  all_goals obtain ⟨rfl, rfl, rfl⟩ := hr
  all_goals first
    | (left; simp_all; done)
    | (right; simp_all; done)

theorem cancel_cases (s : TournamentState) (a : Pubkey) :
    ((cancel_tournament s a).error.isSome ∧ (cancel_tournament s a).state = s ∧
      (cancel_tournament s a).transfers = []) ∨
    ((cancel_tournament s a).error = none ∧
      s.phase = TournamentPhase.Registration ∧
      (cancel_tournament s a).state =
        { s with phase := TournamentPhase.Cancelled }) := by
  rcases hr : cancel_tournament s a with ⟨ts0, st0, err0⟩
  unfold cancel_tournament at hr
  repeat' split at hr
  all_goals simp only [RunResult.mk.injEq] at hr
  all_goals obtain ⟨rfl, rfl, rfl⟩ := hr
  all_goals first
    | (left; simp_all; done)
    | (right; simp_all; done)

theorem refund_cases (s : TournamentState) (a p : Pubkey) :
    ((refund_participant s a p).error.isSome ∧
      (refund_participant s a p).state = s ∧
      (refund_participant s a p).transfers = []) ∨
    ((refund_participant s a p).error = none ∧
      s.phase = TournamentPhase.Cancelled ∧
      (refund_participant s a p).state =
        { s with refunded_participants :=
            s.refunded_participants ++ [p] }) := by
  rcases hr : refund_participant s a p with ⟨ts0, st0, err0⟩
  unfold refund_participant at hr
  repeat' split at hr
  all_goals simp only [RunResult.mk.injEq] at hr
  all_goals obtain ⟨rfl, rfl, rfl⟩ := hr
  all_goals first
    | (left; simp_all; done)
    | (right; simp_all; done)

/-- C1 (counterexample): in `finalize_tournament` the per-winner
`MissingWinnerAccount` resolution is interleaved with the transfers, not
performed up front: with two individual winners and only the first winner's
account supplied, the call fails with `MissingWinnerAccount` *after* having
already transferred 50 lamports out of the vault to the first winner, so a
failed run does not mean that no value left the vault. -/
theorem C1_counterexample :
    finalize_tournament playingState 9
        [Winner.Individual 1, Winner.Individual 2] [1] =
      ⟨[Transfer.fromEscrow 1 50], playingState,
       some ErrorCode.MissingWinnerAccount⟩ ∧
    [Transfer.fromEscrow 1 50] ≠ ([] : List Transfer) := by
  constructor
  · rfl
  · decide

/-- C1 (amended): no operation mutates the `TournamentState` before
returning an error — every failed run returns with the state exactly as it
was — and `buy_in`, `withdraw_operator_fee` and `refund_participant` perform
all validation before their single transfer, so a failed run of those three
performs no transfer at all.  (For `finalize_tournament` and
`distribute_match_rewards` the per-winner account resolution and per-share
zero checks are interleaved with the transfers, so a failed run can have
already transferred to earlier winners; see the counterexample.) -/
theorem C1_validation_before_mutation :
    (∀ (s : TournamentState) (op : Op), ((applyOp s op).error).isSome →
      (applyOp s op).state = s) ∧
    (∀ (s : TournamentState) (player authority : Pubkey),
      ((buy_in s player authority).error).isSome →
      (buy_in s player authority).transfers = []) ∧
    (∀ (s : TournamentState) (authority recipient : Pubkey),
      ((withdraw_operator_fee s authority recipient).error).isSome →
      (withdraw_operator_fee s authority recipient).transfers = []) ∧
    (∀ (s : TournamentState) (authority participant : Pubkey),
      ((refund_participant s authority participant).error).isSome →
      (refund_participant s authority participant).transfers = []) := by
  refine ⟨?_, ?_, ?_, ?_⟩
  · intro s op h
    cases op with
    | buyIn p a =>
      simp only [applyOp] at h ⊢
      rcases buy_in_cases s p a with ⟨_, hs, _⟩ | ⟨he, _, _⟩
      · exact hs
      · rw [he] at h; simp at h
    | start a pp mp =>
      simp only [applyOp] at h ⊢
      rcases start_cases s a pp mp with ⟨_, hs, _⟩ | ⟨he, _, _⟩
      · exact hs
      · rw [he] at h; simp at h
    | finalize a w acc =>
      simp only [applyOp] at h ⊢
      rcases finalize_cases s a w acc with ⟨_, hs⟩ | ⟨he, _, _⟩
      · exact hs
      · rw [he] at h; simp at h
    | distribute a m w acc =>
      simp only [applyOp] at h ⊢
      rcases distribute_cases s a m w acc with ⟨_, hs⟩ | ⟨he, _, _, _⟩
      · exact hs
      · rw [he] at h; simp at h
    | withdrawFee a r =>
      simp only [applyOp] at h ⊢
      rcases withdraw_cases s a r with ⟨_, hs, _⟩ | ⟨he, _, _⟩
      · exact hs
      · rw [he] at h; simp at h
    | cancel a =>
      simp only [applyOp] at h ⊢
      rcases cancel_cases s a with ⟨_, hs, _⟩ | ⟨he, _, _⟩
      · exact hs
      · rw [he] at h; simp at h
    | refund a p =>
      simp only [applyOp] at h ⊢
      rcases refund_cases s a p with ⟨_, hs, _⟩ | ⟨he, _, _⟩
      · exact hs
      · rw [he] at h; simp at h
  · intro s p a h
    rcases buy_in_cases s p a with ⟨_, _, ht⟩ | ⟨he, _, _⟩
    · exact ht
    · rw [he] at h; simp at h
  · intro s a r h
    rcases withdraw_cases s a r with ⟨_, _, ht⟩ | ⟨he, _, _⟩
    · exact ht
    · rw [he] at h; simp at h
  · intro s a p h
    rcases refund_cases s a p with ⟨_, _, ht⟩ | ⟨he, _, _⟩
    · exact ht
    · rw [he] at h; simp at h

theorem C1_validation_before_mutation_witness :
    (applyOp playingState (Op.cancel 9)).state = playingState :=
  C1_validation_before_mutation.1 playingState (Op.cancel 9) (by rfl)

/-- C5: the phase of a tournament only ever moves along
Registration → Playing → Finalized or Registration → Cancelled: every
successful operation either preserves the phase, or is `start_tournament`
taking Registration to Playing, `finalize_tournament` taking Playing to
Finalized, or `cancel_tournament` taking Registration to Cancelled.  In
particular no operation moves a Playing tournament to Cancelled, and no
operation changes the phase of a Finalized or Cancelled tournament. -/
theorem C5_phase_transitions (s : TournamentState) (op : Op)
    (h : (applyOp s op).error = none) :
    (applyOp s op).state.phase = s.phase ∨
    (s.phase = TournamentPhase.Registration ∧
      (applyOp s op).state.phase = TournamentPhase.Playing ∧
      ∃ a pp mp, op = Op.start a pp mp) ∨
    (s.phase = TournamentPhase.Playing ∧
      (applyOp s op).state.phase = TournamentPhase.Finalized ∧
      ∃ a w acc, op = Op.finalize a w acc) ∨
    (s.phase = TournamentPhase.Registration ∧
      (applyOp s op).state.phase = TournamentPhase.Cancelled ∧
      ∃ a, op = Op.cancel a) := by
  cases op with
  | buyIn p a =>
    simp only [applyOp] at h ⊢
    rcases buy_in_cases s p a with ⟨hi, _, _⟩ | ⟨_, _, hs⟩
    · rw [h] at hi; simp at hi
    · left; rw [hs]
  | start a pp mp =>
    simp only [applyOp] at h ⊢
    rcases start_cases s a pp mp with ⟨hi, _, _⟩ | ⟨_, hr, hs⟩
    · rw [h] at hi; simp at hi
    · exact Or.inr (Or.inl ⟨hr, by rw [hs], a, pp, mp, rfl⟩)
  | finalize a w acc =>
    simp only [applyOp] at h ⊢
    rcases finalize_cases s a w acc with ⟨hi, _⟩ | ⟨_, hr, hs⟩
    · rw [h] at hi; simp at hi
    · exact Or.inr (Or.inr (Or.inl ⟨hr, by rw [hs], a, w, acc, rfl⟩))
  | distribute a m w acc =>
    simp only [applyOp] at h ⊢
    rcases distribute_cases s a m w acc with ⟨hi, _⟩ | ⟨_, _, _, hs⟩
    · rw [h] at hi; simp at hi
    · left; rw [hs]
  | withdrawFee a r =>
    simp only [applyOp] at h ⊢
    rcases withdraw_cases s a r with ⟨hi, _, _⟩ | ⟨_, _, hs⟩
    · rw [h] at hi; simp at hi
    · left; rw [hs]
  | cancel a =>
    simp only [applyOp] at h ⊢
    rcases cancel_cases s a with ⟨hi, _, _⟩ | ⟨_, hr, hs⟩
    · rw [h] at hi; simp at hi
    · exact Or.inr (Or.inr (Or.inr ⟨hr, by rw [hs], a, rfl⟩))
  | refund a p =>
    simp only [applyOp] at h ⊢
    rcases refund_cases s a p with ⟨hi, _, _⟩ | ⟨_, _, hs⟩
    · rw [h] at hi; simp at hi
    · left; rw [hs]

theorem C5_witness :
    (applyOp regState (Op.cancel 9)).state.phase = regState.phase ∨
    (regState.phase = TournamentPhase.Registration ∧
      (applyOp regState (Op.cancel 9)).state.phase = TournamentPhase.Playing ∧
      ∃ a pp mp, Op.cancel 9 = Op.start a pp mp) ∨
    (regState.phase = TournamentPhase.Playing ∧
      (applyOp regState (Op.cancel 9)).state.phase = TournamentPhase.Finalized ∧
      ∃ a w acc, Op.cancel 9 = Op.finalize a w acc) ∨
    (regState.phase = TournamentPhase.Registration ∧
      (applyOp regState (Op.cancel 9)).state.phase = TournamentPhase.Cancelled ∧
      ∃ a, Op.cancel 9 = Op.cancel a) :=
  C5_phase_transitions regState (Op.cancel 9) (by rfl)

/-- C7: `distribute_match_rewards` is idempotent per match identifier: a
successful call had a fresh match id, records that id in `paid_match_ids`,
and every subsequent call with the same id (by the tournament authority, with
any winner list and any accounts) fails with `MatchAlreadyPaid` and performs
no transfer, so the vault is debited at most once per match id. -/
theorem C7_match_idempotent (s : TournamentState) (authority : Pubkey)
    (m : Nat) (winners : List Winner) (accounts : List Pubkey)
    (h : (distribute_match_rewards s authority m winners accounts).error = none) :
    m ∉ s.paid_match_ids ∧
    (distribute_match_rewards s authority m winners accounts).state.paid_match_ids =
      s.paid_match_ids ++ [m] ∧
    ∀ (w2 : List Winner) (acc2 : List Pubkey),
      distribute_match_rewards
          (distribute_match_rewards s authority m winners accounts).state
          (distribute_match_rewards s authority m winners accounts).state.authority
          m w2 acc2 =
        ⟨[], (distribute_match_rewards s authority m winners accounts).state,
         some ErrorCode.MatchAlreadyPaid⟩ := by
  rcases distribute_cases s authority m winners accounts with
    ⟨hi, _⟩ | ⟨_, hph, hm, hs⟩
  · rw [h] at hi; simp at hi
  refine ⟨hm, by rw [hs], ?_⟩
  intro w2 acc2
  rw [hs]
  simp [distribute_match_rewards, hph]

theorem C7_witness :
    42 ∉ finalizedState.paid_match_ids ∧
    (distribute_match_rewards finalizedState 9 42
        [Winner.Individual 1] [1]).state.paid_match_ids =
      finalizedState.paid_match_ids ++ [42] ∧
    distribute_match_rewards
        (distribute_match_rewards finalizedState 9 42
          [Winner.Individual 1] [1]).state
        (distribute_match_rewards finalizedState 9 42
          [Winner.Individual 1] [1]).state.authority
        42 [Winner.Individual 2] [2] =
      ⟨[], (distribute_match_rewards finalizedState 9 42
          [Winner.Individual 1] [1]).state,
       some ErrorCode.MatchAlreadyPaid⟩ := by
  have h := C7_match_idempotent finalizedState 9 42 [Winner.Individual 1] [1]
    (by rfl)
  exact ⟨h.1, h.2.1, h.2.2 [Winner.Individual 2] [2]⟩

/-! ### Group payout arithmetic -/

theorem transfersTotal_cons (t : Transfer) (ts : List Transfer) :
    transfersTotal (t :: ts) = t.amount + transfersTotal ts := by
  simp [transfersTotal]

theorem transfersTotal_append (a b : List Transfer) :
    transfersTotal (a ++ b) = transfersTotal a + transfersTotal b := by
  simp [transfersTotal]

/-- Exact shape of a successful group payout: with `n` players, the first
`n - 1` each receive `payout_per_player` and the last receives the whole
remainder, so the group total is exactly the remaining amount. -/
theorem groupLoop_shape (accounts : List Pubkey) :
    ∀ (players : List Pubkey) (per rem : Nat), players ≠ [] →
      per * players.length ≤ rem →
      ∀ ts d, groupPayoutLoop accounts players per rem = (ts, Except.ok d) →
        d = rem ∧
        ts = List.zipWith
          (fun p a => Transfer.fromEscrow p (a % U64MOD)) players
          (List.replicate (players.length - 1) per ++
            [rem - (players.length - 1) * per]) := by
  intro players
  induction players with
  | nil => intro per rem hne; exact absurd rfl hne
  | cons p rest ih =>
    intro per rem hne hle ts d hrun
    by_cases hr : rest = []
    · subst hr
      by_cases hz : rem = 0
      · simp [groupPayoutLoop, hz] at hrun
      by_cases hc : p ∈ accounts
      · simp [groupPayoutLoop, hz, hc] at hrun
        obtain ⟨hts, hd⟩ := hrun
        refine ⟨hd.symm, ?_⟩
        simp [← hts]
      · simp [groupPayoutLoop, hz, hc] at hrun
    · have hper : per ≤ rem := by
        have h1 : per * 1 ≤ per * (p :: rest).length :=
          Nat.mul_le_mul_left per (by simp)
        simpa using le_trans h1 hle
      by_cases hz : per = 0
      · simp [groupPayoutLoop, hr, hz] at hrun
      by_cases hc : p ∈ accounts
      case neg => simp [groupPayoutLoop, hr, hz, hc] at hrun
      rcases hrec : groupPayoutLoop accounts rest per (rem - per) with ⟨ts1, r1⟩
      cases r1 with
      | error e => simp [groupPayoutLoop, hr, hz, hc, hrec] at hrun
      | ok d1 =>
        simp [groupPayoutLoop, hr, hz, hc, hrec] at hrun
        obtain ⟨hts, hd⟩ := hrun
        have hle1 : per * rest.length ≤ rem - per := by
          rw [List.length_cons, Nat.mul_succ] at hle
          omega
        obtain ⟨hd1, hts1⟩ := ih per (rem - per) hr hle1 ts1 d1 hrec
        constructor
        · omega
        · rcases hlen : rest.length with _ | n
          · exact absurd (List.length_eq_zero.mp hlen) hr
          · have hlast : rem - per - n * per = rem - (n + 1) * per := by
              rw [Nat.succ_mul]
              omega
            rw [← hts, hts1, hlen, List.length_cons, hlen]
            simp [List.replicate_succ, hlast]

/-- Every per-player share of a group payout is bounded by the remaining
amount. -/
theorem group_shares_le (players : List Pubkey) (per rem : Nat)
    (hle : per * players.length ≤ rem) (hne : players ≠ []) :
    ∀ a ∈ List.replicate (players.length - 1) per ++
      [rem - (players.length - 1) * per], a ≤ rem := by
  intro a ha
  rcases List.mem_append.mp ha with hmem | hmem
  · rw [List.eq_of_mem_replicate hmem]
    have hp : 0 < players.length := List.length_pos.mpr hne
    calc per = per * 1 := (Nat.mul_one per).symm
      _ ≤ per * players.length := Nat.mul_le_mul_left per (by omega)
      _ ≤ rem := hle
  · simp at hmem
    subst hmem
    exact Nat.sub_le _ _

/-- A successful group payout whose remaining amount fits in a `u64`
distributes exactly the remaining amount, with no unit lost or created. -/
theorem groupLoop_total (accounts players : List Pubkey) (per rem : Nat)
    (hne : players ≠ []) (hle : per * players.length ≤ rem)
    (hb : rem < U64MOD) :
    ∀ ts d, groupPayoutLoop accounts players per rem = (ts, Except.ok d) →
      d = rem ∧ transfersTotal ts = rem := by
  intro ts d hrun
  obtain ⟨hd, hts⟩ := groupLoop_shape accounts players per rem hne hle ts d hrun
  refine ⟨hd, ?_⟩
  have hlen : players.length - 1 + 1 = players.length := by
    cases players with
    | nil => exact absurd rfl hne
    | cons a l => simp
  have hrep : (players.length - 1) * per ≤ rem := by
    calc (players.length - 1) * per ≤ players.length * per :=
          Nat.mul_le_mul_right per (Nat.sub_le _ _)
      _ = per * players.length := Nat.mul_comm _ _
      _ ≤ rem := hle
  have hmod : ∀ a : Nat, a ≤ rem → a % U64MOD = a := fun a ha =>
    Nat.mod_eq_of_lt (lt_of_le_of_lt ha hb)
  subst hts
  clear hrun
  -- compute the sum of the zipped transfer list
  have key : ∀ (ps : List Pubkey) (amts : List Nat), ps.length = amts.length →
      (∀ a ∈ amts, a ≤ rem) →
      transfersTotal (List.zipWith
        (fun p a => Transfer.fromEscrow p (a % U64MOD)) ps amts) = amts.sum := by
    intro ps
    induction ps with
    | nil => intro amts h _; simp [List.length_eq_zero.mp h.symm, transfersTotal]
    | cons x xs ihp =>
      intro amts hlen2 hbound
      cases amts with
      | nil => simp at hlen2
      | cons a rest2 =>
        simp only [List.zipWith_cons_cons, transfersTotal_cons, List.sum_cons]
        rw [ihp rest2 (by simpa using hlen2) (fun b hb2 => hbound b (by simp [hb2])),
          hmod a (hbound a (by simp)), Transfer.amount]
  rw [key _ _ (by simp [hlen]) (group_shares_le players per rem hle hne)]
  rw [List.sum_append, List.sum_replicate, List.sum_cons, List.sum_nil]
  simp only [smul_eq_mul]
  omega

/-- If any per-player share of a group payout called with
`payout_per_player = A / n` is zero, the loop fails with `NoMatchRewards`
before performing any transfer. -/
theorem groupLoop_zero_share (accounts players : List Pubkey) (A : Nat)
    (hne : players ≠ [])
    (hz : 0 ∈ List.replicate (players.length - 1) (A / players.length) ++
        [A - (players.length - 1) * (A / players.length)]) :
    groupPayoutLoop accounts players (A / players.length) A =
      ([], Except.error ErrorCode.NoMatchRewards) := by
  cases players with
  | nil => exact absurd rfl hne
  | cons p rest =>
    by_cases hr : rest = []
    · subst hr
      simp at hz
      simp [groupPayoutLoop, hz]
    · by_cases hp0 : A / (p :: rest).length = 0
      · have hp0a : A / (rest.length + 1) = 0 := by simpa using hp0
        simp [groupPayoutLoop, hr, hp0a]
      · exfalso
        rcases List.mem_append.mp hz with hmem | hmem
        · exact hp0 (List.eq_of_mem_replicate hmem).symm
        · simp only [List.mem_singleton] at hmem
          have hmul : ((p :: rest).length - 1) * (A / (p :: rest).length) +
              A / (p :: rest).length ≤ A := by
            have h1 : (A / (p :: rest).length) * (p :: rest).length ≤ A :=
              Nat.div_mul_le_self A _
            have h2 : (p :: rest).length = ((p :: rest).length - 1) + 1 := by
              simp
            rw [h2, Nat.mul_succ, Nat.mul_comm] at h1
            exact h1
          revert hmem hmul hp0
          generalize A / (p :: rest).length = per
          generalize ((p :: rest).length - 1) * per = kp
          intro hmem hmul hp0
          omega

theorem zipWith_mod_eq (ps : List Pubkey) :
    ∀ amts : List Nat, (∀ a ∈ amts, a % U64MOD = a) →
      List.zipWith (fun p a => Transfer.fromEscrow p (a % U64MOD)) ps amts =
      List.zipWith (fun p a => Transfer.fromEscrow p a) ps amts := by
  induction ps with
  | nil => simp
  | cons x xs ih =>
    intro amts h
    cases amts with
    | nil => simp
    | cons a rest =>
      simp only [List.zipWith_cons_cons, List.cons.injEq]
      exact ⟨by rw [h a (by simp)], ih rest (fun b hb => h b (by simp [hb]))⟩

/-- C4: a `Group` winner entry with players `p₁ … pₙ` and combined amount `A`
(processed identically by `finalize_tournament` and
`distribute_match_rewards` through the shared group payout loop, which both
call with `payout_per_player = A / n`): on success the first `n - 1` players
each receive `⌊A / n⌋`, the last player receives `A - (n-1)·⌊A / n⌋`, and the
transfers sum to exactly `A` — no unit lost or created; and whenever any
individual share is zero the loop fails with `NoMatchRewards`. -/
theorem C4_group_split (accounts players : List Pubkey) (A : Nat)
    (hne : players ≠ []) (hb : A < U64MOD) :
    (∀ ts d, groupPayoutLoop accounts players (A / players.length) A =
        (ts, Except.ok d) →
      d = A ∧
      ts = List.zipWith (fun p a => Transfer.fromEscrow p a) players
        (List.replicate (players.length - 1) (A / players.length) ++
          [A - (players.length - 1) * (A / players.length)]) ∧
      transfersTotal ts = A) ∧
    (0 ∈ List.replicate (players.length - 1) (A / players.length) ++
        [A - (players.length - 1) * (A / players.length)] →
      groupPayoutLoop accounts players (A / players.length) A =
        ([], Except.error ErrorCode.NoMatchRewards)) := by
  have hle : (A / players.length) * players.length ≤ A :=
    Nat.div_mul_le_self A _
  constructor
  · intro ts d hrun
    obtain ⟨hd, hts⟩ := groupLoop_shape accounts players _ A hne hle ts d hrun
    obtain ⟨-, htot⟩ := groupLoop_total accounts players _ A hne hle hb ts d hrun
    refine ⟨hd, ?_, htot⟩
    rw [hts, zipWith_mod_eq]
    intro a ha
    exact Nat.mod_eq_of_lt
      (lt_of_le_of_lt (group_shares_le players _ A hle hne a ha) hb)
  · exact groupLoop_zero_share accounts players A hne

theorem C4_witness :
    (100 : Nat) = 100 ∧
    [Transfer.fromEscrow 1 33, Transfer.fromEscrow 2 33,
      Transfer.fromEscrow 3 34] =
      List.zipWith (fun p a => Transfer.fromEscrow p a)
        ([1, 2, 3] : List Pubkey)
        (List.replicate (([1, 2, 3] : List Pubkey).length - 1)
            (100 / ([1, 2, 3] : List Pubkey).length) ++
          [100 - (([1, 2, 3] : List Pubkey).length - 1) *
            (100 / ([1, 2, 3] : List Pubkey).length)]) ∧
    transfersTotal [Transfer.fromEscrow 1 33, Transfer.fromEscrow 2 33,
      Transfer.fromEscrow 3 34] = 100 :=
  (C4_group_split [1, 2, 3] [1, 2, 3] 100 (by decide) (by decide)).1
    [Transfer.fromEscrow 1 33, Transfer.fromEscrow 2 33,
      Transfer.fromEscrow 3 34] 100 (by rfl)

/-- The transfers recorded by a successful group payout never exceed the
group total it reports (truncation can only lower them). -/
theorem groupLoop_le (accounts : List Pubkey) :
    ∀ (players : List Pubkey) (per rem : Nat) (ts : List Transfer) (d : Nat),
      groupPayoutLoop accounts players per rem = (ts, Except.ok d) →
      transfersTotal ts ≤ d := by
  intro players
  induction players with
  | nil =>
    intro per rem ts d h
    simp [groupPayoutLoop] at h
    obtain ⟨rfl, rfl⟩ := h
    simp [transfersTotal]
  | cons p rest ih =>
    intro per rem ts d h
    by_cases hr : rest = []
    · subst hr
      by_cases hz : rem = 0
      · simp [groupPayoutLoop, hz] at h
      by_cases hc : p ∈ accounts
      · simp [groupPayoutLoop, hz, hc] at h
        obtain ⟨hts, hd⟩ := h
        rw [← hts, ← hd]
        simp [transfersTotal, Transfer.amount]
        exact Nat.mod_le rem U64MOD
      · simp [groupPayoutLoop, hz, hc] at h
    · by_cases hz : per = 0
      · simp [groupPayoutLoop, hr, hz] at h
      by_cases hc : p ∈ accounts
      case neg => simp [groupPayoutLoop, hr, hz, hc] at h
      rcases hrec : groupPayoutLoop accounts rest per (rem - per) with ⟨ts1, r1⟩
      cases r1 with
      | error e => simp [groupPayoutLoop, hr, hz, hc, hrec] at h
      | ok d1 =>
        simp [groupPayoutLoop, hr, hz, hc, hrec] at h
        obtain ⟨hts, hd⟩ := h
        have hih := ih per (rem - per) ts1 d1 hrec
        rw [← hts, ← hd]
        rw [transfersTotal_cons]
        have hm := Nat.mod_le per U64MOD
        simp [Transfer.amount]
        omega

/-- The transfers recorded by a successful run of the finalize winner loop
never exceed the total it reports. -/
theorem finLoop_le (payouts : List Nat) (pool : Nat) (accounts : List Pubkey) :
    ∀ (winners : List Winner) (pos total : Nat) (ts : List Transfer) (T : Nat),
      finalizeWinnersLoop payouts pool accounts winners pos total =
        (ts, Except.ok T) →
      total ≤ T ∧ transfersTotal ts ≤ T - total := by
  intro winners
  induction winners with
  | nil =>
    intro pos total ts T h
    simp [finalizeWinnersLoop] at h
    obtain ⟨rfl, rfl⟩ := h
    simp [transfersTotal]
  | cons w rest ih =>
    intro pos total ts T h
    cases w with
    | Individual player =>
      by_cases hpos : pos < payouts.length
      case neg =>
        rw [finalizeWinnersLoop, dif_neg hpos] at h
        exact ih (pos + 1) total ts T h
      case pos =>
        rw [finalizeWinnersLoop, dif_pos hpos] at h
        cases hca : calculate_percentage_amount pool
            (payouts[pos]) with
        | error e => simp [hca] at h
        | ok amount =>
          by_cases hc : player ∈ accounts
          case neg => simp [hca, hc] at h
          rcases hrec : finalizeWinnersLoop payouts pool accounts rest
              (pos + 1) (total + amount) with ⟨ts1, r1⟩
          cases r1 with
          | error e => simp [hca, hc, hrec] at h
          | ok T1 =>
            simp [hca, hc, hrec] at h
            obtain ⟨hts, hT⟩ := h
            obtain ⟨ih1, ih2⟩ := ih (pos + 1) (total + amount) ts1 T1 hrec
            have hm := Nat.mod_le amount U64MOD
            constructor
            · omega
            · rw [← hts, transfersTotal_cons]
              simp [Transfer.amount]
              omega
    | Group players k =>
      rw [finalizeWinnersLoop] at h
      by_cases hpe : players.isEmpty = true
      · simp [hpe] at h
      by_cases hk : k = 0
      · simp [hpe, hk] at h
      cases hca : calculate_percentage_amount pool
          ((((payouts.drop pos).take k).sum) % U16MOD) with
      | error e => simp [hpe, hk, hca] at h
      | ok combined =>
        have hdm : combined / players.length * players.length ≤ combined :=
          Nat.div_mul_le_self _ _
        rcases hg : groupPayoutLoop accounts players
            (combined / players.length) combined with ⟨gts, gr⟩
        cases gr with
        | error e => simp [hpe, hk, hca, hdm, hg] at h
        | ok d =>
          rcases hrec : finalizeWinnersLoop payouts pool accounts rest
              (pos + k) (total + d) with ⟨ts1, r1⟩
          cases r1 with
          | error e => simp [hpe, hk, hca, hdm, hg, hrec] at h
          | ok T1 =>
            simp [hpe, hk, hca, hdm, hg, hrec] at h
            obtain ⟨hts, hT⟩ := h
            have hgle := groupLoop_le accounts players _ _ gts d hg
            obtain ⟨ih1, ih2⟩ := ih (pos + k) (total + d) ts1 T1 hrec
            constructor
            · omega
            · rw [← hts, transfersTotal_append]
              omega

theorem calc_pct_exact (q pct : Nat) (h : pct ≤ 10000) :
    calculate_percentage_amount (10000 * q) pct = Except.ok (q * pct) := by
  rw [calc_pct_ok _ _ h]
  congr 1
  rw [Nat.mul_assoc]
  exact Nat.mul_div_cancel_left (q * pct) (by norm_num)

/-- When the pool is a multiple of 10000 — so every basis-point computation
is exact — a successful finalize winner loop that exactly covers the rest of
the payout sequence distributes `pool / 10000` units per basis point: the
reported total and the recorded transfers both equal `q` times the sum of
the remaining payout percentages. -/
theorem finLoop_exact (payouts : List Nat) (q : Nat) (accounts : List Pubkey)
    (hsum : payouts.sum = 10000) (hb : 10000 * q < U64MOD) :
    ∀ (winners : List Winner) (pos total : Nat) (ts : List Transfer) (T : Nat),
      pos + consumedPositions winners = payouts.length →
      finalizeWinnersLoop payouts (10000 * q) accounts winners pos total =
        (ts, Except.ok T) →
      T = total + q * (payouts.drop pos).sum ∧
      transfersTotal ts = q * (payouts.drop pos).sum := by
  intro winners
  induction winners with
  | nil =>
    intro pos total ts T hcov h
    simp [consumedPositions] at hcov
    simp [finalizeWinnersLoop] at h
    obtain ⟨rfl, rfl⟩ := h
    rw [hcov, List.drop_length]
    simp [transfersTotal]
  | cons w rest ih =>
    intro pos total ts T hcov h
    cases w with
    | Individual player =>
      simp only [consumedPositions] at hcov
      have hpos : pos < payouts.length := by omega
      rw [finalizeWinnersLoop, dif_pos hpos] at h
      have hpct : payouts[pos] ≤ 10000 := by
        rw [← hsum]
        exact List.single_le_sum (fun x _ => Nat.zero_le x) _
          (List.getElem_mem hpos)
      rw [calc_pct_exact q _ hpct] at h
      by_cases hc : player ∈ accounts
      case neg => simp [hc] at h
      rcases hrec : finalizeWinnersLoop payouts (10000 * q) accounts rest
          (pos + 1) (total + q * payouts[pos]) with ⟨ts1, r1⟩
      cases r1 with
      | error e => simp [hc, hrec] at h
      | ok T1 =>
        simp [hc, hrec] at h
        obtain ⟨hts, hT⟩ := h
        have hcov1 : (pos + 1) + consumedPositions rest = payouts.length := by
          omega
        obtain ⟨ihT, ihts⟩ := ih (pos + 1) (total + q * payouts[pos]) ts1 T1
          hcov1 hrec
        have hdrop : (payouts.drop pos).sum =
            payouts[pos] + (payouts.drop (pos + 1)).sum := by
          have h2 : payouts.drop pos = payouts[pos] :: payouts.drop (pos + 1) :=
            List.drop_eq_getElem_cons hpos
          rw [h2, List.sum_cons]
        have hamtle : q * payouts[pos] ≤ 10000 * q := by
          calc q * payouts[pos] ≤ q * 10000 := Nat.mul_le_mul_left q hpct
            _ = 10000 * q := Nat.mul_comm _ _
        have hmod : q * payouts[pos] % U64MOD = q * payouts[pos] :=
          Nat.mod_eq_of_lt (lt_of_le_of_lt hamtle hb)
        constructor
        · rw [← hT, ihT, hdrop, Nat.mul_add]
          ring
        · rw [← hts, transfersTotal_cons]
          simp only [Transfer.amount]
          rw [hmod, ihts, hdrop, Nat.mul_add]
    | Group players k =>
      simp only [consumedPositions] at hcov
      rw [finalizeWinnersLoop] at h
      by_cases hpe : players.isEmpty = true
      · simp [hpe] at h
      by_cases hk : k = 0
      · simp [hpe, hk] at h
      have hne : players ≠ [] := by
        intro hcontra
        rw [hcontra] at hpe
        simp at hpe
      have hcp_le : ((payouts.drop pos).take k).sum ≤ 10000 := by
        calc ((payouts.drop pos).take k).sum ≤ (payouts.drop pos).sum :=
              sum_take_le _ _
          _ ≤ payouts.sum := sum_drop_le _ _
          _ = 10000 := hsum
      have hca : calculate_percentage_amount (10000 * q)
          ((((payouts.drop pos).take k).sum) % U16MOD) =
          Except.ok (q * ((payouts.drop pos).take k).sum) := by
        rw [Nat.mod_eq_of_lt (lt_of_le_of_lt hcp_le (by norm_num [U16MOD]))]
        exact calc_pct_exact q _ hcp_le
      have hdm := Nat.div_mul_le_self
        (q * ((payouts.drop pos).take k).sum) players.length
      rcases hg : groupPayoutLoop accounts players
          ((q * ((payouts.drop pos).take k).sum) / players.length)
          (q * ((payouts.drop pos).take k).sum) with ⟨gts, gr⟩
      cases gr with
      | error e => simp [hpe, hk, hca, hdm, hg] at h
      | ok d =>
        rcases hrec : finalizeWinnersLoop payouts (10000 * q) accounts rest
            (pos + k) (total + d) with ⟨ts1, r1⟩
        cases r1 with
        | error e => simp [hpe, hk, hca, hdm, hg, hrec] at h
        | ok T1 =>
          simp [hpe, hk, hca, hdm, hg, hrec] at h
          obtain ⟨hts, hT⟩ := h
          have hcb : q * ((payouts.drop pos).take k).sum < U64MOD := by
            refine lt_of_le_of_lt ?_ hb
            calc q * ((payouts.drop pos).take k).sum ≤ q * 10000 :=
                  Nat.mul_le_mul_left q hcp_le
              _ = 10000 * q := Nat.mul_comm _ _
          obtain ⟨hd, hgts⟩ := groupLoop_total accounts players _ _ hne hdm hcb
            gts d hg
          have hcov1 : (pos + k) + consumedPositions rest = payouts.length := by
            omega
          obtain ⟨ihT, ihts⟩ := ih (pos + k) (total + d) ts1 T1 hcov1 hrec
          have hdrop : (payouts.drop pos).sum =
              ((payouts.drop pos).take k).sum +
                (payouts.drop (pos + k)).sum := by
            conv_lhs => rw [← List.take_append_drop k (payouts.drop pos)]
            rw [List.sum_append, List.drop_drop]
          constructor
          · rw [← hT, ihT, hd, hdrop, Nat.mul_add]
            ring
          · rw [← hts, transfersTotal_append, hgts, ihts, hdrop, Nat.mul_add]

theorem calc_total_ok_val (p b t : Nat)
    (h : calculate_total_buy_ins p b = Except.ok t) : t = p * b := by
  by_cases hc : p * b / b = p
  · simp [calculate_total_buy_ins, hc] at h
    exact h.symm
  · simp [calculate_total_buy_ins, hc] at h

theorem calc_pct_ok_val (total pct v : Nat)
    (h : calculate_percentage_amount total pct = Except.ok v) :
    v = total * pct / 10000 := by
  by_cases hc : total * pct / 10000 ≤ total
  · simp [calculate_percentage_amount, hc] at h
    exact h.symm
  · simp [calculate_percentage_amount, hc] at h

/-- A successful `finalize_tournament` run is exactly a successful winner
loop over `tournament_payouts` with the pool
`entry_fee × current_players × tournament_prize_percentage / 10000`, whose
reported total passed the final `total_distributed ≤ pool` check. -/
theorem finalize_ok_run (s : TournamentState) (a : Pubkey) (w : List Winner)
    (acc : List Pubkey)
    (h : (finalize_tournament s a w acc).error = none) :
    ∃ ts T,
      finalizeWinnersLoop s.tournament_payouts (tournamentPool s) acc w 0 0 =
        (ts, Except.ok T) ∧ T ≤ tournamentPool s ∧
      (finalize_tournament s a w acc).transfers = ts := by
  by_cases h1 : a = s.authority
  case neg => simp [finalize_tournament, h1] at h
  by_cases h2 : s.phase = TournamentPhase.Playing
  case neg => simp [finalize_tournament, h1, h2] at h
  by_cases h3 : w.isEmpty = true
  case pos => simp [finalize_tournament, h1, h2, h3] at h
  cases hv : validateFinalizeWinners s w with
  | some e => simp [finalize_tournament, h1, h2, h3, hv] at h
  | none =>
  cases ht : calculate_total_buy_ins s.current_players s.buy_in_amount with
  | error e => simp [finalize_tournament, h1, h2, h3, hv, ht] at h
  | ok tb =>
  cases hp : calculate_percentage_amount tb s.tournament_prize_percentage with
  | error e => simp [finalize_tournament, h1, h2, h3, hv, ht, hp] at h
  | ok pool =>
  have hpool : pool = tournamentPool s := by
    rw [calc_pct_ok_val _ _ _ hp, calc_total_ok_val _ _ _ ht]
    rfl
  rcases hl : finalizeWinnersLoop s.tournament_payouts pool acc w 0 0
    with ⟨ts, r⟩
  cases r with
  | error e => simp [finalize_tournament, h1, h2, h3, hv, ht, hp, hl] at h
  | ok T =>
  by_cases h6 : T ≤ pool
  case neg => simp [finalize_tournament, h1, h2, h3, hv, ht, hp, hl, h6] at h
  refine ⟨ts, T, ?_, ?_, ?_⟩
  · rw [← hpool]
    exact hl
  · rw [← hpool]
    exact h6
  · simp [finalize_tournament, h1, h2, h3, hv, ht, hp, hl, h6]

/-- C2 (amended): for every successful `finalize_tournament` run the sum of
all amounts transferred to individual winners and group members is at most
the tournament pool; and it equals the pool exactly whenever the winner
entries' consumed positions exactly cover the whole `tournament_payouts`
sequence, the payout percentages sum to 10000, the pool fits in a `u64`, and
the pool is a multiple of 10000 (so that no basis-point computation loses a
remainder to floor division). -/
theorem C2_conservation (s : TournamentState) (authority : Pubkey)
    (winners : List Winner) (accounts : List Pubkey)
    (h : (finalize_tournament s authority winners accounts).error = none) :
    transfersTotal
      (finalize_tournament s authority winners accounts).transfers ≤
      tournamentPool s ∧
    (10000 ∣ tournamentPool s → s.tournament_payouts.sum = 10000 →
      consumedPositions winners = s.tournament_payouts.length →
      tournamentPool s < U64MOD →
      transfersTotal
        (finalize_tournament s authority winners accounts).transfers =
        tournamentPool s) := by
  obtain ⟨ts, T, hl, hT, htr⟩ :=
    finalize_ok_run s authority winners accounts h
  rw [htr]
  constructor
  · obtain ⟨h0, hle⟩ := finLoop_le _ _ _ winners 0 0 ts T hl
    omega
  · intro hdvd hsum hcov hb
    obtain ⟨q, hq⟩ := hdvd
    rw [hq] at hl hb
    obtain ⟨-, hts⟩ := finLoop_exact s.tournament_payouts q accounts hsum hb
      winners 0 0 ts T (by simpa using hcov) hl
    rw [hts, List.drop_zero, hsum, hq]
    exact Nat.mul_comm q 10000

/-- A started tournament whose pool works out to 3 units (6 players, entry
fee 1, tournament prize 50%). -/
def poolThreeState : TournamentState :=
  { playingState with buy_in_amount := 1, current_players := 6,
                      participants := [1, 2, 3, 4, 5, 6] }

/-- C2 (counterexample): a successful finalize whose winner entries exactly
cover the whole payout sequence can still distribute strictly less than the
pool: with pool 3 and payouts `[5000, 5000]` each winner receives
`⌊3 · 5000 / 10000⌋ = 1`, so 2 of the 3 units are paid out even though the
positions exactly cover the sequence — the claimed equality fails. -/
theorem C2_counterexample :
    (finalize_tournament poolThreeState 9
        [Winner.Individual 1, Winner.Individual 2] [1, 2]).error = none ∧
    consumedPositions [Winner.Individual 1, Winner.Individual 2] =
      poolThreeState.tournament_payouts.length ∧
    poolThreeState.tournament_payouts.sum = 10000 ∧
    transfersTotal (finalize_tournament poolThreeState 9
        [Winner.Individual 1, Winner.Individual 2] [1, 2]).transfers = 2 ∧
    tournamentPool poolThreeState = 3 ∧ (2 : Nat) ≠ 3 := by
  refine ⟨rfl, rfl, rfl, rfl, rfl, by decide⟩

/-- A started tournament whose pool is exactly 10000 units (2 players, entry
fee 10000, tournament prize 50%), so the pool is divisible by 10000. -/
def divisibleState : TournamentState :=
  { playingState with buy_in_amount := 10000 }

theorem C2_witness :
    transfersTotal (finalize_tournament divisibleState 9
        [Winner.Individual 1, Winner.Individual 2] [1, 2]).transfers ≤
      tournamentPool divisibleState ∧
    transfersTotal (finalize_tournament divisibleState 9
        [Winner.Individual 1, Winner.Individual 2] [1, 2]).transfers =
      tournamentPool divisibleState := by
  have h := C2_conservation divisibleState 9
    [Winner.Individual 1, Winner.Individual 2] [1, 2] (by rfl)
  exact ⟨h.1, h.2 ⟨1, by rfl⟩ (by rfl) (by rfl) (by decide)⟩

/-! ### No operation ever returns `DuplicateWinner` -/

theorem validateFinalizePlayers_some (s : TournamentState) :
    ∀ (ps : List Pubkey) (e : ErrorCode),
      validateFinalizePlayers s ps = some e →
      e = ErrorCode.WinnerNotParticipant := by
  intro ps
  induction ps with
  | nil => intro e h; simp [validateFinalizePlayers] at h
  | cons p rest ih =>
    intro e h
    by_cases hp : is_participant s p = true
    · simp [validateFinalizePlayers, hp] at h
      exact ih e h
    · simp [validateFinalizePlayers, hp] at h
      exact h.symm

theorem validateFinalizeWinners_some (s : TournamentState) :
    ∀ (ws : List Winner) (e : ErrorCode),
      validateFinalizeWinners s ws = some e →
      e = ErrorCode.WinnerNotParticipant := by
  intro ws
  induction ws with
  | nil => intro e h; simp [validateFinalizeWinners] at h
  | cons w rest ih =>
    intro e h
    cases w with
    | Individual p =>
      by_cases hp : is_participant s p = true
      · simp [validateFinalizeWinners, hp] at h
        exact ih e h
      · simp [validateFinalizeWinners, hp] at h
        exact h.symm
    | Group ps k =>
      cases hv : validateFinalizePlayers s ps with
      | some e1 =>
        simp [validateFinalizeWinners, hv] at h
        rw [← h]
        exact validateFinalizePlayers_some s ps e1 hv
      | none =>
        simp [validateFinalizeWinners, hv] at h
        exact ih e h

theorem validateMatchPlayers_some (s : TournamentState) :
    ∀ (ps : List Pubkey) (e : ErrorCode),
      validateMatchPlayers s ps = some e →
      e = ErrorCode.InvalidWinner ∨ e = ErrorCode.WinnerNotParticipant := by
  intro ps
  induction ps with
  | nil => intro e h; simp [validateMatchPlayers] at h
  | cons p rest ih =>
    intro e h
    by_cases hd : p = pubkeyDefault
    · simp [validateMatchPlayers, hd] at h
      exact Or.inl h.symm
    by_cases hp : is_participant s p = true
    · simp [validateMatchPlayers, hd, hp] at h
      exact ih e h
    · simp [validateMatchPlayers, hd, hp] at h
      exact Or.inr h.symm

theorem validateMatchWinners_some (s : TournamentState) :
    ∀ (ws : List Winner) (e : ErrorCode),
      validateMatchWinners s ws = some e →
      e = ErrorCode.InvalidWinner ∨ e = ErrorCode.WinnerNotParticipant := by
  intro ws
  induction ws with
  | nil => intro e h; simp [validateMatchWinners] at h
  | cons w rest ih =>
    intro e h
    cases w with
    | Individual p =>
      by_cases hd : p = pubkeyDefault
      · simp [validateMatchWinners, hd] at h
        exact Or.inl h.symm
      by_cases hp : is_participant s p = true
      · simp [validateMatchWinners, hd, hp] at h
        exact ih e h
      · simp [validateMatchWinners, hd, hp] at h
        exact Or.inr h.symm
    | Group ps k =>
      cases hv : validateMatchPlayers s ps with
      | some e1 =>
        simp [validateMatchWinners, hv] at h
        rw [← h]
        exact validateMatchPlayers_some s ps e1 hv
      | none =>
        simp [validateMatchWinners, hv] at h
        exact ih e h

theorem groupLoop_no_dup (accounts : List Pubkey) :
    ∀ (players : List Pubkey) (per rem : Nat) (ts : List Transfer)
      (e : ErrorCode),
      groupPayoutLoop accounts players per rem = (ts, Except.error e) →
      e ≠ ErrorCode.DuplicateWinner := by
  intro players
  induction players with
  | nil => intro per rem ts e h; simp [groupPayoutLoop] at h
  | cons p rest ih =>
    intro per rem ts e h
    by_cases hr : rest = []
    · subst hr
      by_cases hz : rem = 0
      · simp [groupPayoutLoop, hz] at h
        obtain ⟨-, rfl⟩ := h
        decide
      by_cases hc : p ∈ accounts
      · simp [groupPayoutLoop, hz, hc] at h
      · simp [groupPayoutLoop, hz, hc] at h
        obtain ⟨-, rfl⟩ := h
        decide
    · by_cases hz : per = 0
      · simp [groupPayoutLoop, hr, hz] at h
        obtain ⟨-, rfl⟩ := h
        decide
      by_cases hc : p ∈ accounts
      case neg =>
        simp [groupPayoutLoop, hr, hz, hc] at h
        obtain ⟨-, rfl⟩ := h
        decide
      rcases hrec : groupPayoutLoop accounts rest per (rem - per) with ⟨ts1, r1⟩
      cases r1 with
      | error e1 =>
        simp [groupPayoutLoop, hr, hz, hc, hrec] at h
        obtain ⟨-, rfl⟩ := h
        exact ih per (rem - per) ts1 _ hrec
      | ok d1 => simp [groupPayoutLoop, hr, hz, hc, hrec] at h

theorem finLoop_no_dup (payouts : List Nat) (pool : Nat)
    (accounts : List Pubkey) :
    ∀ (winners : List Winner) (pos total : Nat) (ts : List Transfer)
      (e : ErrorCode),
      finalizeWinnersLoop payouts pool accounts winners pos total =
        (ts, Except.error e) →
      e ≠ ErrorCode.DuplicateWinner := by
  intro winners
  induction winners with
  | nil => intro pos total ts e h; simp [finalizeWinnersLoop] at h
  | cons w rest ih =>
    intro pos total ts e h
    cases w with
    | Individual player =>
      by_cases hpos : pos < payouts.length
      case neg =>
        rw [finalizeWinnersLoop, dif_neg hpos] at h
        exact ih (pos + 1) total ts e h
      case pos =>
        rw [finalizeWinnersLoop, dif_pos hpos] at h
        cases hca : calculate_percentage_amount pool payouts[pos] with
        | error e1 =>
          have he := calc_pct_err _ _ _ hca
          subst he
          simp [hca] at h
          obtain ⟨-, rfl⟩ := h
          decide
        | ok amount =>
          by_cases hc : player ∈ accounts
          case neg =>
            simp [hca, hc] at h
            obtain ⟨-, rfl⟩ := h
            decide
          rcases hrec : finalizeWinnersLoop payouts pool accounts rest
              (pos + 1) (total + amount) with ⟨ts1, r1⟩
          cases r1 with
          | error e1 =>
            simp [hca, hc, hrec] at h
            obtain ⟨-, rfl⟩ := h
            exact ih (pos + 1) (total + amount) ts1 _ hrec
          | ok T1 => simp [hca, hc, hrec] at h
    | Group players k =>
      rw [finalizeWinnersLoop] at h
      by_cases hpe : players.isEmpty = true
      · simp [hpe] at h
        obtain ⟨-, rfl⟩ := h
        decide
      by_cases hk : k = 0
      · simp [hpe, hk] at h
        obtain ⟨-, rfl⟩ := h
        decide
      cases hca : calculate_percentage_amount pool
          ((((payouts.drop pos).take k).sum) % U16MOD) with
      | error e1 =>
        have he := calc_pct_err _ _ _ hca
        subst he
        simp [hpe, hk, hca] at h
        obtain ⟨-, rfl⟩ := h
        decide
      | ok combined =>
        have hdm := Nat.div_mul_le_self combined players.length
        rcases hg : groupPayoutLoop accounts players
            (combined / players.length) combined with ⟨gts, gr⟩
        cases gr with
        | error e1 =>
          simp [hpe, hk, hca, hdm, hg] at h
          obtain ⟨-, rfl⟩ := h
          exact groupLoop_no_dup accounts players _ _ gts _ hg
        | ok d =>
          rcases hrec : finalizeWinnersLoop payouts pool accounts rest
              (pos + k) (total + d) with ⟨ts1, r1⟩
          cases r1 with
          | error e1 =>
            simp [hpe, hk, hca, hdm, hg, hrec] at h
            obtain ⟨-, rfl⟩ := h
            exact ih (pos + k) (total + d) ts1 _ hrec
          | ok T1 => simp [hpe, hk, hca, hdm, hg, hrec] at h

theorem distLoop_no_dup (payouts : List Nat) (pool : Nat)
    (accounts : List Pubkey) :
    ∀ (winners : List Winner) (pos total : Nat) (ts : List Transfer)
      (e : ErrorCode),
      distributeWinnersLoop payouts pool accounts winners pos total =
        (ts, Except.error e) →
      e ≠ ErrorCode.DuplicateWinner := by
  intro winners
  induction winners with
  | nil => intro pos total ts e h; simp [distributeWinnersLoop] at h
  | cons w rest ih =>
    intro pos total ts e h
    cases w with
    | Individual player =>
      by_cases hpos : pos < payouts.length
      case neg =>
        rw [distributeWinnersLoop, dif_neg hpos] at h
        exact ih (pos + 1) total ts e h
      case pos =>
        rw [distributeWinnersLoop, dif_pos hpos] at h
        cases hca : calculate_percentage_amount pool payouts[pos] with
        | error e1 =>
          have he := calc_pct_err _ _ _ hca
          subst he
          simp [hca] at h
          obtain ⟨-, rfl⟩ := h
          decide
        | ok amount =>
          by_cases hz : amount = 0
          · simp [hca, hz] at h
            obtain ⟨-, rfl⟩ := h
            decide
          by_cases hc : player ∈ accounts
          case neg =>
            simp [hca, hz, hc] at h
            obtain ⟨-, rfl⟩ := h
            decide
          rcases hrec : distributeWinnersLoop payouts pool accounts rest
              (pos + 1) (total + amount) with ⟨ts1, r1⟩
          cases r1 with
          | error e1 =>
            simp [hca, hz, hc, hrec] at h
            obtain ⟨-, rfl⟩ := h
            exact ih (pos + 1) (total + amount) ts1 _ hrec
          | ok T1 => simp [hca, hz, hc, hrec] at h
    | Group players k =>
      rw [distributeWinnersLoop] at h
      by_cases hpe : players.isEmpty = true
      · simp [hpe] at h
        obtain ⟨-, rfl⟩ := h
        decide
      by_cases hk : k = 0
      · simp [hpe, hk] at h
        obtain ⟨-, rfl⟩ := h
        decide
      cases hca : calculate_percentage_amount pool
          ((((payouts.drop pos).take k).sum) % U16MOD) with
      | error e1 =>
        have he := calc_pct_err _ _ _ hca
        subst he
        simp [hpe, hk, hca] at h
        obtain ⟨-, rfl⟩ := h
        decide
      | ok combined =>
        have hdm := Nat.div_mul_le_self combined players.length
        rcases hg : groupPayoutLoop accounts players
            (combined / players.length) combined with ⟨gts, gr⟩
        cases gr with
        | error e1 =>
          simp [hpe, hk, hca, hdm, hg] at h
          obtain ⟨-, rfl⟩ := h
          exact groupLoop_no_dup accounts players _ _ gts _ hg
        | ok d =>
          rcases hrec : distributeWinnersLoop payouts pool accounts rest
              (pos + k) (total + d) with ⟨ts1, r1⟩
          cases r1 with
          | error e1 =>
            simp [hpe, hk, hca, hdm, hg, hrec] at h
            obtain ⟨-, rfl⟩ := h
            exact ih (pos + k) (total + d) ts1 _ hrec
          | ok T1 => simp [hpe, hk, hca, hdm, hg, hrec] at h

theorem buy_in_no_dup (s : TournamentState) (p a : Pubkey) :
    (buy_in s p a).error ≠ some ErrorCode.DuplicateWinner := by
  unfold buy_in
  repeat' split
  all_goals simp

theorem start_no_dup (s : TournamentState) (a : Pubkey) (pp mp : List Nat) :
    (start_tournament s a pp mp).error ≠ some ErrorCode.DuplicateWinner := by
  by_cases h1 : a = s.authority
  case neg => simp [start_tournament, h1]
  by_cases h2 : s.phase = TournamentPhase.Registration
  case neg => simp [start_tournament, h1, h2]
  by_cases h3 : 0 < s.current_players
  case neg => simp [start_tournament, h1, h2, h3]
  by_cases h4a : pp = []
  case pos => simp [start_tournament, h1, h2, h3, h4a]
  by_cases h4b : 20 < pp.length
  case pos => simp [start_tournament, h1, h2, h3, h4a, h4b]
  by_cases h5 : s.current_players < pp.length
  case pos => simp [start_tournament, h1, h2, h3, h4a, h4b, h5]
  by_cases h6 : pp.sum = 10000
  case neg => simp [start_tournament, h1, h2, h3, h4a, h4b, h5, h6]
  by_cases h7 : ∃ x ∈ pp, x = 0 ∨ 10000 < x
  case pos => simp [start_tournament, h1, h2, h3, h4a, h4b, h5, h6, h7]
  by_cases h8a : mp = []
  case pos => simp [start_tournament, h1, h2, h3, h4a, h4b, h5, h6, h7, h8a]
  by_cases h8b : 8 < mp.length
  case pos =>
    simp [start_tournament, h1, h2, h3, h4a, h4b, h5, h6, h7, h8a, h8b]
  by_cases h9 : mp.sum = 10000
  case neg =>
    simp [start_tournament, h1, h2, h3, h4a, h4b, h5, h6, h7, h8a, h8b, h9]
  by_cases h10 : ∃ x ∈ mp, x = 0 ∨ 10000 < x
  case pos =>
    simp [start_tournament, h1, h2, h3, h4a, h4b, h5, h6, h7, h8a, h8b, h9,
      h10]
  simp [start_tournament, h1, h2, h3, h4a, h4b, h5, h6, h7, h8a, h8b, h9, h10]

theorem finalize_no_dup (s : TournamentState) (a : Pubkey) (w : List Winner)
    (acc : List Pubkey) :
    (finalize_tournament s a w acc).error ≠ some ErrorCode.DuplicateWinner := by
  by_cases h1 : a = s.authority
  case neg => simp [finalize_tournament, h1]
  by_cases h2 : s.phase = TournamentPhase.Playing
  case neg => simp [finalize_tournament, h1, h2]
  by_cases h3 : w.isEmpty = true
  case pos => simp [finalize_tournament, h1, h2, h3]
  cases hv : validateFinalizeWinners s w with
  | some e =>
    have he := validateFinalizeWinners_some s w e hv
    subst he
    simp [finalize_tournament, h1, h2, h3, hv]
  | none =>
  cases ht : calculate_total_buy_ins s.current_players s.buy_in_amount with
  | error e =>
    have he := calc_total_err _ _ _ ht
    subst he
    simp [finalize_tournament, h1, h2, h3, hv, ht]
  | ok tb =>
  cases hp : calculate_percentage_amount tb s.tournament_prize_percentage with
  | error e =>
    have he := calc_pct_err _ _ _ hp
    subst he
    simp [finalize_tournament, h1, h2, h3, hv, ht, hp]
  | ok pool =>
  rcases hl : finalizeWinnersLoop s.tournament_payouts pool acc w 0 0
    with ⟨ts, r⟩
  cases r with
  | error e =>
    simp [finalize_tournament, h1, h2, h3, hv, ht, hp, hl]
    exact finLoop_no_dup s.tournament_payouts pool acc w 0 0 ts e hl
  | ok T =>
    by_cases h6 : T ≤ pool
    · simp [finalize_tournament, h1, h2, h3, hv, ht, hp, hl, h6]
    · simp [finalize_tournament, h1, h2, h3, hv, ht, hp, hl, h6]

theorem distribute_no_dup (s : TournamentState) (a : Pubkey) (m : Nat)
    (w : List Winner) (acc : List Pubkey) :
    (distribute_match_rewards s a m w acc).error ≠
      some ErrorCode.DuplicateWinner := by
  by_cases h1 : a = s.authority
  case neg => simp [distribute_match_rewards, h1]
  by_cases h2 : s.phase = TournamentPhase.Finalized
  case neg => simp [distribute_match_rewards, h1, h2]
  by_cases h3 : m ∈ s.paid_match_ids
  case pos => simp [distribute_match_rewards, h1, h2, h3]
  by_cases h4 : w.isEmpty = true
  case pos => simp [distribute_match_rewards, h1, h2, h3, h4]
  cases hv : validateMatchWinners s w with
  | some e =>
    rcases validateMatchWinners_some s w e hv with he | he <;>
      (subst he; simp [distribute_match_rewards, h1, h2, h3, h4, hv])
  | none =>
  cases ht : calculate_total_buy_ins s.current_players s.buy_in_amount with
  | error e =>
    have he := calc_total_err _ _ _ ht
    subst he
    simp [distribute_match_rewards, h1, h2, h3, h4, hv, ht]
  | ok tb =>
  cases hp : calculate_percentage_amount tb s.match_prize_percentage with
  | error e =>
    have he := calc_pct_err _ _ _ hp
    subst he
    simp [distribute_match_rewards, h1, h2, h3, h4, hv, ht, hp]
  | ok tmp =>
  by_cases hn : 0 < (s.current_players + s.match_size - 1) / s.match_size
  case neg => simp [distribute_match_rewards, h1, h2, h3, h4, hv, ht, hp, hn]
  by_cases hm : 0 < tmp / ((s.current_players + s.match_size - 1) / s.match_size)
  case neg =>
    simp [distribute_match_rewards, h1, h2, h3, h4, hv, ht, hp, hn, hm]
  by_cases hc : tmp / ((s.current_players + s.match_size - 1) / s.match_size) *
      ((s.current_players + s.match_size - 1) / s.match_size) ≤ tmp
  case neg =>
    simp [distribute_match_rewards, h1, h2, h3, h4, hv, ht, hp, hn, hm, hc]
  rcases hl : distributeWinnersLoop s.match_payout_percentages
      (tmp / ((s.current_players + s.match_size - 1) / s.match_size)) acc w 0 0
    with ⟨ts, r⟩
  cases r with
  | error e =>
    simp [distribute_match_rewards, h1, h2, h3, h4, hv, ht, hp, hn, hm, hc, hl]
    exact distLoop_no_dup s.match_payout_percentages _ acc w 0 0 ts e hl
  | ok T =>
    by_cases h6 : T ≤ tmp / ((s.current_players + s.match_size - 1) / s.match_size)
    · simp [distribute_match_rewards, h1, h2, h3, h4, hv, ht, hp, hn, hm, hc,
        hl, h6]
    · simp [distribute_match_rewards, h1, h2, h3, h4, hv, ht, hp, hn, hm, hc,
        hl, h6]

theorem withdraw_no_dup (s : TournamentState) (a r : Pubkey) :
    (withdraw_operator_fee s a r).error ≠ some ErrorCode.DuplicateWinner := by
  by_cases h1 : a = s.authority
  case neg => simp [withdraw_operator_fee, h1]
  by_cases h2 : s.phase = TournamentPhase.Finalized
  case neg => simp [withdraw_operator_fee, h1, h2]
  by_cases h3 : s.operator_fee_withdrawn = true
  case pos => simp [withdraw_operator_fee, h1, h2, h3]
  cases ht : calculate_total_buy_ins s.current_players s.buy_in_amount with
  | error e =>
    have he := calc_total_err _ _ _ ht
    subst he
    simp [withdraw_operator_fee, h1, h2, h3, ht]
  | ok tb =>
  cases hp : calculate_percentage_amount tb s.operator_fee_percentage with
  | error e =>
    have he := calc_pct_err _ _ _ hp
    subst he
    simp [withdraw_operator_fee, h1, h2, h3, ht, hp]
  | ok fee => simp [withdraw_operator_fee, h1, h2, h3, ht, hp]

theorem cancel_no_dup (s : TournamentState) (a : Pubkey) :
    (cancel_tournament s a).error ≠ some ErrorCode.DuplicateWinner := by
  unfold cancel_tournament
  repeat' split
  all_goals simp

theorem refund_no_dup (s : TournamentState) (a p : Pubkey) :
    (refund_participant s a p).error ≠ some ErrorCode.DuplicateWinner := by
  unfold refund_participant
  repeat' split
  all_goals simp

theorem initialize_no_dup (payer : Pubkey) (eb bi mp ms tp mpp ofp : Nat) :
    initialize_tournament payer eb bi mp ms tp mpp ofp ≠
      Except.error ErrorCode.DuplicateWinner := by
  unfold initialize_tournament
  repeat' split
  all_goals simp

/-- A started tournament with two registered players and payouts
`[6000, 4000]`, used to finalize with the same winner listed twice. -/
def dupState : TournamentState :=
  { playingState with participants := [7, 8],
                      tournament_payouts := [6000, 4000] }

/-- C9: `finalize_tournament` does not reject winner lists in which the same
registered participant appears more than once — listing participant 7 as two
`Individual` entries succeeds and transfers 7 a prize once per occurrence
(60 then 40 units here) — and the declared `DuplicateWinner` error is never
returned by any operation. -/
theorem C9_duplicate_winners :
    finalize_tournament dupState 9
        [Winner.Individual 7, Winner.Individual 7] [7] =
      ⟨[Transfer.fromEscrow 7 60, Transfer.fromEscrow 7 40],
       { dupState with phase := TournamentPhase.Finalized }, none⟩ ∧
    (∀ (s : TournamentState) (op : Op),
      (applyOp s op).error ≠ some ErrorCode.DuplicateWinner) ∧
    (∀ payer eb bi mp ms tp mpp ofp : Nat,
      initialize_tournament payer eb bi mp ms tp mpp ofp ≠
        Except.error ErrorCode.DuplicateWinner) := by
  refine ⟨by rfl, ?_, initialize_no_dup⟩
  intro s op
  cases op with
  | buyIn p a => exact buy_in_no_dup s p a
  | start a pp mp => exact start_no_dup s a pp mp
  | finalize a w acc => exact finalize_no_dup s a w acc
  | distribute a m w acc => exact distribute_no_dup s a m w acc
  | withdrawFee a r => exact withdraw_no_dup s a r
  | cancel a => exact cancel_no_dup s a
  | refund a p => exact refund_no_dup s a p

theorem C9_witness :
    (applyOp regState (Op.cancel 9)).error ≠ some ErrorCode.DuplicateWinner :=
  C9_duplicate_winners.2.1 regState (Op.cancel 9)

end TournamentProgram
